import Mathlib

set_option maxHeartbeats 1000000
set_option maxRecDepth 8000
set_option autoImplicit false

/-
Verification development for the badge-collector progress-tracking core.

Shallow embedding of:
  scripts/badge_registry.py   (Badge, ALL_BADGES)
  scripts/badge_tracker.py    (load_progress, save_progress, set_status,
                               get_status, should_attempt)
  scripts/phase_2_competition.py (the five action handlers and run())

Modelling conventions, derived from the source:
  * A persisted JSON object is an insertion-ordered association list
    (`Store`), mirroring a Python dict: assigning to an existing key
    replaces its value in place, assigning to a fresh key appends.
  * A JSON field of a status record is `none` when the key is absent,
    `some none` when the key holds JSON null, and `some (some s)` when it
    holds the string `s`.  This keeps Python's distinction between
    `d.get(k, default)` hitting an absent key versus an explicit null.
  * The on-disk file is `FileState`: `absent` when the file does not
    exist, `valid m` when its content parses (json.loads) to the mapping
    `m`, and `invalid` when parsing raises.  `json.dumps`/`json.loads`
    round-tripping of a mapping is abstracted by carrying the mapping
    itself in `valid`.
  * `datetime.now(...)` is an opaque string parameter (`now`), threaded
    through from the environment.
  * Every `run_kaggle_cli` call and every other interaction with the
    outside world (template files, downloads, Playwright, temp dirs) is an
    external effect whose outcome is a field of `Env`; a raised Python
    exception is `Except.error msg`.
  * Handler execution is explicit state passing over `FileState` plus an
    event trace: `Event.save m` for each durable `save_progress` write and
    `Event.remote name` for each remote CLI invocation.  A Python
    exception propagating out of a piece of code is the `HRes.err`
    constructor (carrying the disk state and trace at the moment of the
    raise).
-/

/-- A JSON object field: absent key, JSON null, or a string value. -/
abbrev JField := Option (Option String)

/-- One persisted status record, as stored under a badge id in
badge-progress.json.  The tracked keys are exactly status / updated /
details; a record freshly created by `set_status` on an unknown id starts
as the empty object (all keys absent). -/
structure StatusRecord where
  status : JField := none
  updated : JField := none
  details : JField := none
  deriving DecidableEq, Repr

/-- The persisted id-to-record mapping, as an insertion-ordered
association list mirroring a Python dict. -/
abbrev Store := List (String × StatusRecord)

/-- The keys of a store, in order. -/
def storeKeys (m : Store) : List String := m.map (·.1)

/-- First-match lookup, as Python dict indexing (keys are unique in any
store produced by json.loads or by the tracker itself). -/
def lookupRec : Store → String → Option StatusRecord
  | [], _ => none
  | (k, r) :: rest, i => if k = i then some r else lookupRec rest i

/-- Python `i in data`. -/
def hasKey : Store → String → Bool
  | [], _ => false
  | (k, _) :: rest, i => k = i || hasKey rest i

/-- Replace the value stored under an existing key, in place (under the
unique-keys discipline of a Python dict there is exactly one occurrence). -/
def replaceEntry : Store → String → StatusRecord → Store
  | [], _, _ => []
  | (k, v) :: rest, i, r =>
    if k = i then (i, r) :: replaceEntry rest i r else (k, v) :: replaceEntry rest i r

/-- Python `data[i] = r`: replace in place when the key exists, append
otherwise. -/
def setEntry (m : Store) (i : String) (r : StatusRecord) : Store :=
  if hasKey m i then replaceEntry m i r else m ++ [(i, r)]

/-- Number of entries carrying a given key. -/
def countKey (m : Store) (i : String) : Nat :=
  (m.filter (fun p => p.1 = i)).length

/-- One badge of the registry (badge_registry.py).  Field order matches
the Python dataclass constructor. -/
structure Badge where
  id : String
  name : String
  category : String
  phase : Option Nat
  description : String
  automatable : Bool
  tier : Option String := none
  deriving DecidableEq, Repr

/-- The full registry of 59 badges, transcribed from
badge_registry.py `ALL_BADGES`. -/
def ALL_BADGES : List Badge := [
  Badge.mk "python_coder" "Python Coder" "notebooks" (some 1) "Push a Python notebook via API" true none,
  Badge.mk "r_coder" "R Coder" "notebooks" (some 1) "Push an R notebook via API" true none,
  Badge.mk "api_notebook_creator" "API Notebook Creator" "notebooks" (some 1) "Create a notebook using the Kaggle API" true none,
  Badge.mk "utility_scripter" "Utility Scripter" "notebooks" (some 1) "Push a utility script (not a notebook) via API" true none,
  Badge.mk "code_uploader" "Code Uploader" "notebooks" (some 1) "Upload code to Kaggle" true none,
  Badge.mk "code_forker" "Code Forker" "notebooks" (some 1) "Fork an existing public notebook" true none,
  Badge.mk "code_tagger" "Code Tagger" "notebooks" (some 1) "Add tags to a notebook" true none,
  Badge.mk "dataset_creator" "Dataset Creator" "datasets" (some 1) "Create a new dataset" true none,
  Badge.mk "api_dataset_creator" "API Dataset Creator" "datasets" (some 1) "Create a dataset using the Kaggle API" true none,
  Badge.mk "dataset_tagger" "Dataset Tagger" "datasets" (some 1) "Add tags to a dataset" true none,
  Badge.mk "dataset_documenter" "Dataset Documenter" "datasets" (some 1) "Achieve usability score 10/10 on a dataset" true none,
  Badge.mk "model_creator" "Model Creator" "models" (some 1) "Create a new model" true none,
  Badge.mk "api_model_creator" "API Model Creator" "models" (some 1) "Create a model using the Kaggle API" true none,
  Badge.mk "model_variation_creator" "Model Variation Creator" "models" (some 1) "Create a model variation/instance" true none,
  Badge.mk "model_tagger" "Model Tagger" "models" (some 1) "Add tags to a model" true none,
  Badge.mk "model_documenter" "Model Documenter" "models" (some 1) "Achieve usability score 10/10 on a model" true none,
  Badge.mk "competitor" "Competitor" "competitions" (some 2) "Submit to any competition" true none,
  Badge.mk "getting_started_competitor" "Getting Started Competitor" "competitions" (some 2) "Submit to a Getting Started competition" true none,
  Badge.mk "playground_competitor" "Playground Competitor" "competitions" (some 2) "Submit to a Playground competition" true none,
  Badge.mk "community_competitor" "Community Competitor" "competitions" (some 2) "Submit to a Community competition" true none,
  Badge.mk "code_submitter" "Code Submitter" "competitions" (some 2) "Make a code-based submission to a competition" true none,
  Badge.mk "notebook_modeler" "Notebook Modeler" "competitions" (some 2) "Create a notebook that generates a competition submission" true none,
  Badge.mk "competition_modeler" "Competition Modeler" "competitions" (some 2) "Use a model in a competition notebook" true none,
  Badge.mk "dataset_pipeline_creator" "Dataset Pipeline Creator" "datasets" (some 3) "Create a dataset from notebook output" true none,
  Badge.mk "model_pipeline_creator" "Model Pipeline Creator" "models" (some 3) "Create a model from notebook output" true none,
  Badge.mk "r_markdown_coder" "R Markdown Coder" "notebooks" (some 3) "Push and execute an R Markdown notebook on KKB" true none,
  Badge.mk "stylish" "Stylish" "account" (some 4) "Fill out your Kaggle profile (bio, location, etc.)" true none,
  Badge.mk "vampire" "Vampire" "account" (some 4) "Switch to dark theme" true none,
  Badge.mk "bookmarker" "Bookmarker" "community" (some 4) "Bookmark a notebook, dataset, or competition" true none,
  Badge.mk "collector" "Collector" "community" (some 4) "Add an item to a collection" true none,
  Badge.mk "github_coder" "GitHub Coder" "notebooks" (some 4) "Link a GitHub repo to a notebook" true none,
  Badge.mk "colab_coder" "Colab Coder" "notebooks" (some 4) "Open a Kaggle notebook in Google Colab" true none,
  Badge.mk "linked_dataset_creator" "Linked Dataset Creator" "datasets" (some 4) "Create a dataset linked to a URL source" true none,
  Badge.mk "linked_model_creator" "Linked Model Creator" "models" (some 4) "Create a model linked to an external source" true none,
  Badge.mk "seven_day_login_streak" "7-Day Login Streak" "account" (some 5) "Log in for 7 consecutive days" true none,
  Badge.mk "thirty_day_login_streak" "30-Day Login Streak" "account" (some 5) "Log in for 30 consecutive days" true none,
  Badge.mk "submission_streak" "Submission Streak" "competitions" (some 5) "Submit to competitions for 7 consecutive days" true none,
  Badge.mk "super_submission_streak" "Super Submission Streak" "competitions" (some 5) "Submit to competitions for 30 consecutive days" true none,
  Badge.mk "contributor" "Contributor" "community" none "Reach Contributor progression tier" false none,
  Badge.mk "expert" "Expert" "community" none "Reach Expert progression tier" false none,
  Badge.mk "master" "Master" "community" none "Reach Master progression tier" false none,
  Badge.mk "grandmaster" "Grandmaster" "community" none "Reach Grandmaster progression tier" false none,
  Badge.mk "discussion_starter" "Discussion Starter" "community" none "Start a discussion that gets upvoted" false none,
  Badge.mk "commentator" "Commentator" "community" none "Post a comment that gets upvoted" false none,
  Badge.mk "voter" "Voter" "community" none "Upvote content on Kaggle" false none,
  Badge.mk "sharer" "Sharer" "community" none "Share a notebook or dataset externally" false none,
  Badge.mk "course_completer" "Course Completer" "community" none "Complete a Kaggle Learn course" false none,
  Badge.mk "certificate_earner" "Certificate Earner" "community" none "Earn a Kaggle Learn certificate" false none,
  Badge.mk "competition_medal" "Competition Medal" "competitions" none "Earn a medal in a competition" false none,
  Badge.mk "dataset_medal" "Dataset Medal" "datasets" none "Earn a medal on a dataset" false none,
  Badge.mk "notebook_medal" "Notebook Medal" "notebooks" none "Earn a medal on a notebook" false none,
  Badge.mk "team_player" "Team Player" "competitions" none "Join a competition team" false none,
  Badge.mk "competition_host" "Competition Host" "competitions" none "Host a competition" false none,
  Badge.mk "simulations_competitor" "Simulations Competitor" "competitions" none "Submit to a Simulations competition" false none,
  Badge.mk "featured_competitor" "Featured Competitor" "competitions" none "Submit to a Featured competition" false none]

/-- The ids of the Catalog. -/
def catalogIds : List String := ALL_BADGES.map (·.id)

/-- The on-disk state of badge-progress.json: missing, parseable to a
mapping, or present but unparseable (json.loads raises). -/
inductive FileState where
  | absent
  | valid (m : Store)
  | invalid
  deriving DecidableEq, Repr

/-- The persisted mapping visible in a file state (empty when the file is
absent or unparseable). -/
def persisted : FileState → Store
  | .absent => []
  | .valid m => m
  | .invalid => []

/-- The record `load_progress` synthesizes for a catalog id missing
from the persisted state: status pending, updated and details JSON null. -/
def initRecord : StatusRecord :=
  { status := some (some "pending"), updated := some none, details := some none }

/-- One iteration of the initialization loop of `load_progress`. -/
def ensureBadge (d : Store) (b : Badge) : Store :=
  if hasKey d b.id then d else d ++ [(b.id, initRecord)]

/-- The initialization loop of `load_progress` over a badge list. -/
def ensureFrom : List Badge → Store → Store
  | [], d => d
  | b :: bs, d => ensureFrom bs (ensureBadge d b)

/-- Ensure every catalog badge is tracked. -/
def ensureAll (d : Store) : Store := ensureFrom ALL_BADGES d

/-- The error a load of an unparseable file raises. -/
def jsonParseError : String := "json.loads: badge-progress.json does not parse"

/-- badge_tracker.load_progress: read the persisted state when the file
exists (raising when it does not parse), then add a pending record for
every catalog id not yet tracked.  Performs no write. -/
def load_progress : FileState → Except String Store
  | .absent => .ok (ensureAll [])
  | .valid m => .ok (ensureAll m)
  | .invalid => .error jsonParseError

/-- badge_tracker.save_progress at the mapping level: the file now holds
exactly the serialized mapping. -/
def save_progress (data : Store) : FileState := .valid data

/-- The in-memory mutation performed by `set_status` between its load and
its save: fetch (or create empty) the record, overwrite status, stamp
updated, and set details only when a truthy (non-None, non-empty) value
is supplied. -/
def applySetStatus (data : Store) (badge_id status : String)
    (details : Option String) (now : String) : Store :=
  let r0 := (lookupRec data badge_id).getD {}
  let r1 := { r0 with status := some (some status), updated := some (some now) }
  let r2 := match details with
    | some d => if d = "" then r1 else { r1 with details := some (some d) }
    | none => r1
  setEntry data badge_id r2

/-- badge_tracker.set_status: load, mutate one record, save. -/
def set_status (badge_id status : String) (details : Option String)
    (now : String) (fs : FileState) : Except String FileState :=
  (load_progress fs).map
    (fun data => save_progress (applySetStatus data badge_id status details now))

/-- Python `data.get(badge_id, dict()).get("status", "pending")`:
`none` is Python None (an explicit JSON null under the status key);
an absent record or absent key defaults to "pending". -/
def getStatusData (data : Store) (badge_id : String) : Option String :=
  match lookupRec data badge_id with
  | none => some "pending"
  | some r =>
    match r.status with
    | none => some "pending"
    | some v => v

/-- badge_tracker.get_status. -/
def get_status (badge_id : String) (fs : FileState) : Except String (Option String) :=
  (load_progress fs).map (fun data => getStatusData data badge_id)

/-- Python `status in ("pending", "failed")` (false for None). -/
def statusEligible : Option String → Bool
  | some s => s = "pending" || s = "failed"
  | none => false

/-- badge_tracker.should_attempt. -/
def should_attempt (badge_id : String) (fs : FileState) : Except String Bool :=
  (get_status badge_id fs).map statusEligible

/-- `should_attempt` on an already-loaded mapping (the file is not
written between the load and the check, so this coincides with the
load-each-time Python code). -/
def shouldAttemptData (data : Store) (badge_id : String) : Bool :=
  statusEligible (getStatusData data badge_id)

/-- Every catalog id is tracked. -/
def complete (m : Store) : Bool := ALL_BADGES.all (fun b => hasKey m b.id)

/-
Crash-level model of the persistence discipline, for the atomicity claim.
A disk has the progress file and (potentially) a temp file; a primitive
operation either completes or is interrupted mid-way, and an interrupted
in-place write leaves unparseable partial content, while a rename is
atomic.
-/

/-- Primitive file-system operations a save discipline can emit. -/
inductive FsOp where
  | writeMain (m : Store)
  | writeTemp (m : Store)
  | renameTempToMain
  deriving DecidableEq, Repr

/-- The two file locations a save discipline may touch. -/
structure Disk where
  main : FileState
  temp : FileState
  deriving DecidableEq, Repr

/-- Effect of a completed operation. -/
def applyOp (d : Disk) : FsOp → Disk
  | .writeMain m => { d with main := .valid m }
  | .writeTemp m => { d with temp := .valid m }
  | .renameTempToMain => { main := d.temp, temp := .absent }

/-- Disk states observable when a crash interrupts an operation mid-way:
an in-place write truncates and partially rewrites its target (the
content no longer parses); a rename exposes no intermediate state. -/
def midStates (d : Disk) : FsOp → List Disk
  | .writeMain _ => [{ d with main := .invalid }]
  | .writeTemp _ => [{ d with temp := .invalid }]
  | .renameTempToMain => []

/-- Run an operation sequence to completion. -/
def applyOps (d : Disk) (ops : List FsOp) : Disk := ops.foldl applyOp d

/-- All disk states observable if the process crashes at any point while
running the operation sequence (before, during, or after each op). -/
def crashStates (d : Disk) : List FsOp → List Disk
  | [] => [d]
  | op :: ops => d :: (midStates d op ++ crashStates (applyOp d op) ops)

/-- The operations `save_progress` actually performs:
`PROGRESS_FILE.write_text(json.dumps(data, indent=2) + "\n")` is a single
direct in-place write of the main file, with no temp file and no rename. -/
def save_progress_ops (data : Store) : List FsOp := [.writeMain data]

/-
Phase 2 orchestration (phase_2_competition.py).
-/

/-- Observable effects of a handler: a durable store write (the full
mapping written by `save_progress`) or a remote CLI invocation. -/
inductive Event where
  | save (m : Store)
  | remote (name : String)
  deriving DecidableEq, Repr

/-- Is the event a remote invocation? -/
def isRemote : Event → Bool
  | .remote _ => true
  | .save _ => false

/-- Result of running a piece of handler code: normal return or a Python
exception propagating out of it.  Both carry the disk state and the
effect trace at that point. -/
inductive HRes (α : Type) where
  | ok (a : α) (fs : FileState) (tr : List Event)
  | err (msg : String) (fs : FileState) (tr : List Event)
  deriving DecidableEq, Repr

/-- The effect trace of a result. -/
def traceOf {α : Type} : HRes α → List Event
  | .ok _ _ tr => tr
  | .err _ _ tr => tr

/-- A `load_progress()` call in handler position: no write, no event. -/
def loadT (fs : FileState) (tr : List Event) : HRes Store :=
  match load_progress fs with
  | .ok d => .ok d fs tr
  | .error e => .err e fs tr

/-- A `set_status` call in handler position: it loads, mutates, and
saves, emitting one durable-write event. -/
def setStatusT (badge_id status : String) (details : Option String)
    (now : String) (fs : FileState) (tr : List Event) : HRes Unit :=
  match load_progress fs with
  | .error e => .err e fs tr
  | .ok data =>
    let m := applySetStatus data badge_id status details now
    .ok () (.valid m) (tr ++ [.save m])

/-- A `for bid in ids: set_status(bid, ...)` loop. -/
def setStatusMany (ids : List String) (status : String) (details : Option String)
    (now : String) (fs : FileState) (tr : List Event) : HRes Unit :=
  match ids with
  | [] => .ok () fs tr
  | i :: rest =>
    match setStatusT i status details now fs tr with
    | .ok _ fs' tr' => setStatusMany rest status details now fs' tr'
    | .err e fs' tr' => .err e fs' tr'

/-- Outcomes of everything outside the progress store: each field is the
result of one external interaction of phase_2_competition.py, with
`Except.error msg` standing for a raised Python exception. -/
structure Env where
  now : String
  titanicTemplateExists : Bool
  titanicSubmit : Except String Unit
  findPlayground : Except String (Option String)
  playgroundDownload : Except String Unit
  playgroundSample : Option String
  playgroundSubmit : Except String Bool
  findResearch : Except String (Option String)
  communityDownload : Except String Unit
  communitySample : Option String
  communitySubmit : Except String Bool
  codePrep : Except String Unit
  codePush : Except String Unit
  codeNbSlug : String
  modelerPrep : Except String Unit
  modelerPush : Except String Unit
  modelerNbSlug : String
  deriving Repr

/-- Python `set_status(...); return b`: propagate an exception, otherwise
return the boolean. -/
def finish (b : Bool) : HRes Unit → HRes Bool
  | .ok _ fs tr => .ok b fs tr
  | .err e fs tr => .err e fs tr

/-- The `except Exception as e:` block shared by the single-target
handlers: mark the target failed with the error text and return False;
an exception raised by that very `set_status` propagates. -/
def handlerExcept1 (badge_id now : String) (res : HRes Bool) : HRes Bool :=
  match res with
  | .ok b fs tr => .ok b fs tr
  | .err e fs tr =>
    match setStatusT badge_id "failed" (some e) now fs tr with
    | .ok _ fs' tr' => .ok false fs' tr'
    | .err e2 fs' tr' => .err e2 fs' tr'

/-- The `except Exception as e:` block of the multi-target handlers. -/
def handlerExceptMany (ids : List String) (now : String) (res : HRes Bool) : HRes Bool :=
  match res with
  | .ok b fs tr => .ok b fs tr
  | .err e fs tr =>
    match setStatusMany ids "failed" (some e) now fs tr with
    | .ok _ fs' tr' => .ok false fs' tr'
    | .err e2 fs' tr' => .err e2 fs' tr'

/-- Target badge ids of `_submit_titanic`. -/
def titanicBadgeIds : List String := ["competitor", "getting_started_competitor"]

/-- The `try:` body of `_submit_titanic`: template check, remote
submission, then mark every actionable target earned. -/
def titanicBody (env : Env) (actionable : List String) (fs : FileState)
    (tr : List Event) : HRes Bool :=
  if env.titanicTemplateExists then
    let tr1 := tr ++ [.remote "kaggle competitions submit (titanic)"]
    match env.titanicSubmit with
    | .error e => .err e fs tr1
    | .ok _ =>
      finish true
        (setStatusMany actionable "earned" (some "competition=titanic") env.now fs tr1)
  else
    finish false
      (setStatusMany actionable "failed" (some "template missing") env.now fs tr)

/-- phase_2_competition._submit_titanic. -/
def submit_titanic (env : Env) (fs : FileState) : HRes Bool :=
  match load_progress fs with
  | .error e => .err e fs []
  | .ok data =>
    let actionable := titanicBadgeIds.filter (shouldAttemptData data)
    if actionable.isEmpty then .ok true fs []
    else
      match setStatusMany actionable "attempting" none env.now fs [] with
      | .err e fs' tr' => .err e fs' tr'
      | .ok _ fs1 tr1 =>
        handlerExceptMany actionable env.now (titanicBody env actionable fs1 tr1)

/-- The `try:` body of `_submit_playground`: find a competition (remote),
download its data (remote), locate a sample submission, submit (remote),
recording skipped / earned / failed transitions as the code does. -/
def playgroundBody (env : Env) (fs : FileState) (tr : List Event) : HRes Bool :=
  let tr1 := tr ++ [.remote "kaggle competitions list (category playground)"]
  match env.findPlayground with
  | .error e => .err e fs tr1
  | .ok none =>
    finish false
      (setStatusT "playground_competitor" "skipped" (some "no active playground competition") env.now fs tr1)
  | .ok (some comp) =>
    let tr2 := tr1 ++ [.remote ("kaggle competitions download " ++ comp)]
    match env.playgroundDownload with
    | .error e => .err e fs tr2
    | .ok _ =>
      match env.playgroundSample with
      | none =>
        finish false
          (setStatusT "playground_competitor" "skipped" (some ("no sample_submission for " ++ comp)) env.now fs tr2)
      | some _ =>
        let tr3 := tr2 ++ [.remote ("kaggle competitions submit " ++ comp)]
        match env.playgroundSubmit with
        | .error e => .err e fs tr3
        | .ok true =>
          finish true
            (setStatusT "playground_competitor" "earned" (some ("competition=" ++ comp)) env.now fs tr3)
        | .ok false =>
          finish false
            (setStatusT "playground_competitor" "failed" (some ("submit failed for " ++ comp)) env.now fs tr3)

/-- phase_2_competition._submit_playground. -/
def submit_playground (env : Env) (fs : FileState) : HRes Bool :=
  match load_progress fs with
  | .error e => .err e fs []
  | .ok data =>
    if shouldAttemptData data "playground_competitor" then
      match setStatusT "playground_competitor" "attempting" none env.now fs [] with
      | .err e fs' tr' => .err e fs' tr'
      | .ok _ fs1 tr1 =>
        handlerExcept1 "playground_competitor" env.now (playgroundBody env fs1 tr1)
    else .ok true fs []

/-- The `try:` body of `_submit_community` (mirrors the playground body
with the research category). -/
def communityBody (env : Env) (fs : FileState) (tr : List Event) : HRes Bool :=
  let tr1 := tr ++ [.remote "kaggle competitions list (category research)"]
  match env.findResearch with
  | .error e => .err e fs tr1
  | .ok none =>
    finish false
      (setStatusT "community_competitor" "skipped" (some "no active research competition (CLI has no \x27community\x27 category)") env.now fs tr1)
  | .ok (some comp) =>
    let tr2 := tr1 ++ [.remote ("kaggle competitions download " ++ comp)]
    match env.communityDownload with
    | .error e => .err e fs tr2
    | .ok _ =>
      match env.communitySample with
      | none =>
        finish false
          (setStatusT "community_competitor" "skipped" (some ("no sample_submission for " ++ comp)) env.now fs tr2)
      | some _ =>
        let tr3 := tr2 ++ [.remote ("kaggle competitions submit " ++ comp)]
        match env.communitySubmit with
        | .error e => .err e fs tr3
        | .ok true =>
          finish true
            (setStatusT "community_competitor" "earned" (some ("competition=" ++ comp)) env.now fs tr3)
        | .ok false =>
          finish false
            (setStatusT "community_competitor" "failed" (some ("submit failed for " ++ comp)) env.now fs tr3)

/-- phase_2_competition._submit_community. -/
def submit_community (env : Env) (fs : FileState) : HRes Bool :=
  match load_progress fs with
  | .error e => .err e fs []
  | .ok data =>
    if shouldAttemptData data "community_competitor" then
      match setStatusT "community_competitor" "attempting" none env.now fs [] with
      | .err e fs' tr' => .err e fs' tr'
      | .ok _ fs1 tr1 =>
        handlerExcept1 "community_competitor" env.now (communityBody env fs1 tr1)
    else .ok true fs []

/-- Target badge ids of `_code_submission`. -/
def codeBadgeIds : List String := ["code_submitter", "notebook_modeler"]

/-- The `try:` body of `_code_submission`: local notebook preparation
(temp dir plus file writes), remote kernel push, then mark every
actionable target earned. -/
def codeBody (env : Env) (actionable : List String) (fs : FileState)
    (tr : List Event) : HRes Bool :=
  match env.codePrep with
  | .error e => .err e fs tr
  | .ok _ =>
    let tr1 := tr ++ [.remote "kaggle kernels push (code submission notebook)"]
    match env.codePush with
    | .error e => .err e fs tr1
    | .ok _ =>
      finish true
        (setStatusMany actionable "earned" (some ("notebook=" ++ env.codeNbSlug)) env.now fs tr1)

/-- phase_2_competition._code_submission. -/
def code_submission (env : Env) (fs : FileState) : HRes Bool :=
  match load_progress fs with
  | .error e => .err e fs []
  | .ok data =>
    let actionable := codeBadgeIds.filter (shouldAttemptData data)
    if actionable.isEmpty then .ok true fs []
    else
      match setStatusMany actionable "attempting" none env.now fs [] with
      | .err e fs' tr' => .err e fs' tr'
      | .ok _ fs1 tr1 =>
        handlerExceptMany actionable env.now (codeBody env actionable fs1 tr1)

/-- The `try:` body of `_competition_modeler`: local notebook
preparation, remote kernel push, then mark the target earned. -/
def modelerBody (env : Env) (fs : FileState) (tr : List Event) : HRes Bool :=
  match env.modelerPrep with
  | .error e => .err e fs tr
  | .ok _ =>
    let tr1 := tr ++ [.remote "kaggle kernels push (competition modeler notebook)"]
    match env.modelerPush with
    | .error e => .err e fs tr1
    | .ok _ =>
      finish true
        (setStatusT "competition_modeler" "earned" (some ("notebook=" ++ env.modelerNbSlug)) env.now fs tr1)

/-- phase_2_competition._competition_modeler. -/
def competition_modeler (env : Env) (fs : FileState) : HRes Bool :=
  match load_progress fs with
  | .error e => .err e fs []
  | .ok data =>
    if shouldAttemptData data "competition_modeler" then
      match setStatusT "competition_modeler" "attempting" none env.now fs [] with
      | .err e fs' tr' => .err e fs' tr'
      | .ok _ fs1 tr1 =>
        handlerExcept1 "competition_modeler" env.now (modelerBody env fs1 tr1)
    else .ok true fs []

/-- The orchestrator loop of phase_2_competition.run: invoke each named
handler in order, counting attempted and succeeded; it installs no
exception handler of its own, so an exception propagating out of a
handler propagates out of the loop. -/
def runNamed (acts : List (String × (FileState → HRes Bool))) (fs : FileState)
    (attempted succeeded : Nat) (tr : List Event) : HRes (Nat × Nat) :=
  match acts with
  | [] => .ok (attempted, succeeded) fs tr
  | (_, fn) :: rest =>
    match fn fs with
    | .ok b fs' tr' =>
      runNamed rest fs' (attempted + 1) (if b then succeeded + 1 else succeeded) (tr ++ tr')
    | .err e fs' tr' => .err e fs' (tr ++ tr')

/-- The fixed registration order of phase 2 handlers. -/
def phase2Actions (env : Env) : List (String × (FileState → HRes Bool)) :=
  [("Titanic submission", submit_titanic env),
   ("Playground submission", submit_playground env),
   ("Community submission", submit_community env),
   ("Code submission", code_submission env),
   ("Competition modeler", competition_modeler env)]

/-- phase_2_competition.run. -/
def phase2_run (env : Env) (fs : FileState) : HRes (Nat × Nat) :=
  runNamed (phase2Actions env) fs 0 0 []

/-- The target ids the five phase 2 handlers check eligibility for. -/
def phase2TargetIds : List String :=
  ["competitor", "getting_started_competitor", "playground_competitor",
   "community_competitor", "code_submitter", "notebook_modeler",
   "competition_modeler"]

/-- Replay the durable writes of an event trace over a starting file
state: the disk after a list of events is the store of the last save
event, or the start state when no save occurred. -/
def applySaves (fs : FileState) (evs : List Event) : FileState :=
  evs.foldl (fun f e => match e with | .save m => .valid m | .remote _ => f) fs

/-- The status a load performed at a given disk state would report. -/
def fileStatus (fs : FileState) (badge_id : String) : Option String :=
  match fs with
  | .valid m => getStatusData m badge_id
  | .absent => some "pending"
  | .invalid => none

/-- In the trace `tr` (produced starting from disk state `fs`), at the
moment of the first remote invocation every id in `ids` is already
recorded as attempting by the durable writes performed so far. -/
def attemptingBeforeFirstRemote (ids : List String) (fs : FileState)
    (tr : List Event) : Prop :=
  ∀ pre r post, tr = pre ++ Event.remote r :: post →
    (∀ e ∈ pre, isRemote e = false) →
    ∀ i ∈ ids, fileStatus (applySaves fs pre) i = some "attempting"

/-- The record resulting from a `set_status(i, status, details)` at time
`now`: status overwritten, updated stamped, and details equal to the
supplied text whenever that text is truthy. -/
def recUpdated (m : Store) (i status now : String) (details : Option String) : Prop :=
  ∃ r, lookupRec m i = some r ∧ r.status = some (some status) ∧
    r.updated = some (some now) ∧
    (∀ d, details = some d → d ≠ "" → r.details = some (some d))


/-- A sample pre-existing persisted record (an earned competitor). -/
def demoStoreOld : Store :=
  [("competitor", { status := some (some "earned"),
                    updated := some (some "2025-12-31T00:00:00+00:00"),
                    details := some (some "competition=titanic") })]

/-- A sample mapping being saved. -/
def demoStoreNew : Store :=
  [("competitor", { status := some (some "pending"),
                    updated := some none, details := some none })]

/-- A persisted store carrying one id that no catalog version knows. -/
def demoLegacyStore : Store :=
  [("legacy_badge", { status := some (some "earned"),
                      updated := some (some "2024-01-01T00:00:00+00:00"),
                      details := some (some "from an older catalog") })]

/-- A record for an already-earned achievement. -/
def earnedRec : StatusRecord :=
  { status := some (some "earned"),
    updated := some (some "2026-01-01T00:00:00+00:00"),
    details := some none }

/-- A persisted store in which every phase 2 target is already earned. -/
def allEarnedStore : Store :=
  [("competitor", earnedRec), ("getting_started_competitor", earnedRec),
   ("playground_competitor", earnedRec), ("community_competitor", earnedRec),
   ("code_submitter", earnedRec), ("notebook_modeler", earnedRec),
   ("competition_modeler", earnedRec)]

/-- A concrete benign environment for witnesses: template present, all
pushes succeed, no playground or research competition currently listed. -/
def envDemo : Env :=
  { now := "2026-01-01T00:00:00+00:00"
    titanicTemplateExists := true
    titanicSubmit := .ok ()
    findPlayground := .ok none
    playgroundDownload := .ok ()
    playgroundSample := none
    playgroundSubmit := .ok true
    findResearch := .ok none
    communityDownload := .ok ()
    communitySample := none
    communitySubmit := .ok true
    codePrep := .ok ()
    codePush := .ok ()
    codeNbSlug := "badge-collector-titanic-submit"
    modelerPrep := .ok ()
    modelerPush := .ok ()
    modelerNbSlug := "badge-collector-comp-modeler" }

/-- The same environment except the Titanic submission raises. -/
def envBoom : Env := { envDemo with titanicSubmit := .error "boom" }

/- Association-list lemmas (Python dict semantics). -/

theorem hasKey_iff_mem (m : Store) (i : String) : hasKey m i = true ↔ i ∈ storeKeys m := by
  induction m with
  | nil => simp [hasKey, storeKeys]
  | cons p rest ih =>
    cases p with
    | mk k r =>
      simp only [hasKey, storeKeys, List.map_cons, List.mem_cons, Bool.or_eq_true,
        decide_eq_true_eq, ih]
      constructor
      · rintro (h | h)
        · exact Or.inl h.symm
        · exact Or.inr h
      · rintro (h | h)
        · exact Or.inl h.symm
        · exact Or.inr h

theorem lookupRec_isSome (m : Store) (i : String) : (lookupRec m i).isSome = hasKey m i := by
  induction m with
  | nil => simp [lookupRec, hasKey]
  | cons p rest ih =>
    cases p with
    | mk k r =>
      by_cases h : k = i
      · subst h; simp [lookupRec, hasKey]
      · simp [lookupRec, hasKey, h, ih]

theorem lookupRec_none_of_not_hasKey (m : Store) (i : String) (h : hasKey m i = false) :
    lookupRec m i = none := by
  have hs := lookupRec_isSome m i
  rw [h] at hs
  cases hl : lookupRec m i with
  | none => rfl
  | some r => rw [hl] at hs; simp at hs

theorem lookupRec_append (m l : Store) (i : String) :
    lookupRec (m ++ l) i =
      match lookupRec m i with
      | some r => some r
      | none => lookupRec l i := by
  induction m with
  | nil => simp [lookupRec]
  | cons p rest ih =>
    cases p with
    | mk k r =>
      by_cases h : k = i
      · subst h; simp [lookupRec]
      · simp [lookupRec, h, ih]

theorem hasKey_append (m l : Store) (i : String) :
    hasKey (m ++ l) i = (hasKey m i || hasKey l i) := by
  induction m with
  | nil => simp [hasKey]
  | cons p rest ih =>
    cases p with
    | mk k r => simp [hasKey, ih, Bool.or_assoc]

theorem countKey_cons (k : String) (r : StatusRecord) (rest : Store) (i : String) :
    countKey ((k, r) :: rest) i = (if k = i then 1 else 0) + countKey rest i := by
  by_cases h : k = i
  · subst h
    simp [countKey, List.filter_cons, Nat.add_comm]
  · simp [countKey, List.filter_cons, h]

theorem countKey_eq_zero (m : Store) (i : String) (h : hasKey m i = false) :
    countKey m i = 0 := by
  induction m with
  | nil => rfl
  | cons p rest ih =>
    cases p with
    | mk k r =>
      simp only [hasKey, Bool.or_eq_false_iff, decide_eq_false_iff_not] at h
      rw [countKey_cons, if_neg h.1, ih h.2]

theorem countKey_eq_one (m : Store) (i : String) (hnd : (storeKeys m).Nodup)
    (hk : hasKey m i = true) : countKey m i = 1 := by
  induction m with
  | nil => simp [hasKey] at hk
  | cons p rest ih =>
    cases p with
    | mk k r =>
      simp only [storeKeys, List.map_cons, List.nodup_cons] at hnd
      by_cases h : k = i
      · subst h
        have h0 : hasKey rest k = false := by
          cases hke : hasKey rest k with
          | false => rfl
          | true => exact absurd ((hasKey_iff_mem rest k).mp hke) hnd.1
        rw [countKey_cons, if_pos rfl, countKey_eq_zero rest k h0]
      · have hk' : hasKey rest i = true := by
          simp only [hasKey, Bool.or_eq_true, decide_eq_true_eq] at hk
          rcases hk with hk | hk
          · exact absurd hk h
          · exact hk
        rw [countKey_cons, if_neg h, ih hnd.2 hk']

/- setEntry (Python dict assignment) lemmas. -/

theorem lookupRec_replace_self (m : Store) (i : String) (r : StatusRecord)
    (hk : hasKey m i = true) : lookupRec (replaceEntry m i r) i = some r := by
  induction m with
  | nil => simp [hasKey] at hk
  | cons p rest ih =>
    cases p with
    | mk k v =>
      by_cases h : k = i
      · subst h; simp [replaceEntry, lookupRec]
      · have hk' : hasKey rest i = true := by
          simp only [hasKey, Bool.or_eq_true, decide_eq_true_eq] at hk
          rcases hk with hk | hk
          · exact absurd hk h
          · exact hk
        simp [replaceEntry, lookupRec, h, ih hk']

theorem lookupRec_replace_ne (m : Store) (i j : String) (r : StatusRecord) (h : j ≠ i) :
    lookupRec (replaceEntry m i r) j = lookupRec m j := by
  induction m with
  | nil => simp [replaceEntry]
  | cons p rest ih =>
    cases p with
    | mk k v =>
      by_cases hki : k = i
      · subst hki
        simp [replaceEntry, lookupRec, Ne.symm h, ih]
      · by_cases hkj : k = j
        · subst hkj
          simp [replaceEntry, lookupRec, hki]
        · simp [replaceEntry, lookupRec, hki, hkj, ih]

theorem hasKey_replace (m : Store) (i j : String) (r : StatusRecord) :
    hasKey (replaceEntry m i r) j = if i = j then hasKey m i else hasKey m j := by
  induction m with
  | nil => simp [replaceEntry, hasKey]
  | cons p rest ih =>
    cases p with
    | mk k v =>
      by_cases hki : k = i
      · subst hki
        by_cases hij : k = j
        · subst hij; simp [replaceEntry, hasKey, ih]
        · simp [replaceEntry, hasKey, hij, ih, Ne.symm hij]
      · by_cases hij : i = j
        · subst hij
          simp [replaceEntry, hasKey, hki, ih, Ne.symm hki]
        · simp [replaceEntry, hasKey, hki, hij, ih]

theorem lookup_setEntry_self (m : Store) (i : String) (r : StatusRecord) :
    lookupRec (setEntry m i r) i = some r := by
  unfold setEntry
  by_cases hk : hasKey m i
  · rw [if_pos hk]; exact lookupRec_replace_self m i r hk
  · rw [if_neg hk, lookupRec_append,
      lookupRec_none_of_not_hasKey m i (by simpa using hk)]
    simp [lookupRec]

theorem lookup_setEntry_ne (m : Store) (i j : String) (r : StatusRecord) (h : j ≠ i) :
    lookupRec (setEntry m i r) j = lookupRec m j := by
  unfold setEntry
  by_cases hk : hasKey m i
  · rw [if_pos hk]; exact lookupRec_replace_ne m i j r h
  · rw [if_neg hk, lookupRec_append]
    cases hm : lookupRec m j with
    | some v => rfl
    | none => simp [lookupRec, Ne.symm h]

theorem hasKey_setEntry (m : Store) (i j : String) (r : StatusRecord) :
    hasKey (setEntry m i r) j = (hasKey m j || decide (i = j)) := by
  unfold setEntry
  by_cases hk : hasKey m i
  · rw [if_pos hk, hasKey_replace]
    by_cases hij : i = j
    · subst hij; simp [hk]
    · simp [hij]
  · rw [if_neg hk, hasKey_append]
    simp [hasKey]

/- Lemmas about the initialization loop of load_progress. -/

theorem hasKey_ensureBadge (d : Store) (b : Badge) (i : String) :
    hasKey (ensureBadge d b) i = (hasKey d i || decide (b.id = i)) := by
  unfold ensureBadge
  by_cases hk : hasKey d b.id
  · rw [if_pos hk]
    by_cases hb : b.id = i
    · subst hb; simp [hk]
    · simp [hb]
  · rw [if_neg hk, hasKey_append]
    simp [hasKey]

theorem lookup_ensureBadge (d : Store) (b : Badge) (i : String) :
    lookupRec (ensureBadge d b) i =
      match lookupRec d i with
      | some r => some r
      | none => if b.id = i then some initRecord else none := by
  unfold ensureBadge
  by_cases hk : hasKey d b.id
  · rw [if_pos hk]
    cases hm : lookupRec d i with
    | some r => rfl
    | none =>
      by_cases hb : b.id = i
      · exfalso
        have hs := lookupRec_isSome d i
        rw [hm, ← hb, hk] at hs
        simp at hs
      · simp [hb]
  · rw [if_neg hk, lookupRec_append]
    cases hm : lookupRec d i with
    | some r => rfl
    | none => simp [lookupRec]

theorem hasKey_ensureFrom (bs : List Badge) (d : Store) (i : String) :
    hasKey (ensureFrom bs d) i = (hasKey d i || bs.any (fun b => decide (b.id = i))) := by
  induction bs generalizing d with
  | nil => simp [ensureFrom]
  | cons b bs ih =>
    simp only [ensureFrom, ih, hasKey_ensureBadge, List.any_cons, Bool.or_assoc]

theorem lookup_ensureFrom (bs : List Badge) (d : Store) (i : String) :
    lookupRec (ensureFrom bs d) i =
      match lookupRec d i with
      | some r => some r
      | none => if bs.any (fun b => decide (b.id = i)) then some initRecord else none := by
  induction bs generalizing d with
  | nil =>
    simp only [ensureFrom, List.any_nil, Bool.false_eq_true, if_false]
    cases lookupRec d i <;> rfl
  | cons b bs ih =>
    simp only [ensureFrom, ih, lookup_ensureBadge, List.any_cons]
    cases hm : lookupRec d i with
    | some r => rfl
    | none =>
      by_cases hb : b.id = i
      · simp [hb]
      · simp [hb]

theorem nodup_ensureBadge (d : Store) (b : Badge) (h : (storeKeys d).Nodup) :
    (storeKeys (ensureBadge d b)).Nodup := by
  unfold ensureBadge
  by_cases hk : hasKey d b.id
  · simpa [hk]
  · rw [if_neg hk]
    have hmem : b.id ∉ storeKeys d := fun hm => by
      rw [(hasKey_iff_mem d b.id).mpr hm] at hk
      exact hk rfl
    simp only [storeKeys, List.map_append, List.map_cons, List.map_nil]
    rw [List.nodup_append]
    refine ⟨h, List.nodup_singleton _, ?_⟩
    intro a ha hab
    rw [List.mem_singleton] at hab
    subst hab
    exact hmem ha

theorem nodup_ensureFrom (bs : List Badge) (d : Store) (h : (storeKeys d).Nodup) :
    (storeKeys (ensureFrom bs d)).Nodup := by
  induction bs generalizing d with
  | nil => simpa [ensureFrom]
  | cons b bs ih => exact ih _ (nodup_ensureBadge d b h)

theorem ensureFrom_id (bs : List Badge) (d : Store)
    (h : ∀ b ∈ bs, hasKey d b.id = true) : ensureFrom bs d = d := by
  induction bs with
  | nil => rfl
  | cons b bs ih =>
    have hb : ensureBadge d b = d := by
      unfold ensureBadge
      rw [if_pos (h b (List.mem_cons_self b bs))]
    simp only [ensureFrom, hb]
    exact ih (fun b2 hb2 => h b2 (List.mem_cons_of_mem b hb2))

/- Catalog-completeness lemmas. -/

theorem complete_load (fs : FileState) (data : Store)
    (h : load_progress fs = .ok data) : complete data = true := by
  have key : ∀ m : Store, complete (ensureAll m) = true := by
    intro m
    unfold complete
    rw [List.all_eq_true]
    intro b hb
    rw [ensureAll, hasKey_ensureFrom]
    have hany : ALL_BADGES.any (fun b2 => decide (b2.id = b.id)) = true := by
      rw [List.any_eq_true]
      exact ⟨b, hb, by simp⟩
    simp [hany]
  cases fs with
  | absent =>
    simp only [load_progress, Except.ok.injEq] at h
    exact h ▸ key []
  | valid m =>
    simp only [load_progress, Except.ok.injEq] at h
    exact h ▸ key m
  | invalid => simp [load_progress] at h

theorem load_valid_of_complete (m : Store) (hc : complete m = true) :
    load_progress (.valid m) = .ok m := by
  have : ensureAll m = m := by
    apply ensureFrom_id
    rw [complete, List.all_eq_true] at hc
    exact hc
  simp [load_progress, ensureAll] at this ⊢
  exact this

theorem complete_applySetStatus (data : Store) (i st : String) (det : Option String)
    (now : String) (hc : complete data = true) :
    complete (applySetStatus data i st det now) = true := by
  rw [complete, List.all_eq_true] at hc ⊢
  intro b hb
  simp only [applySetStatus]
  rw [hasKey_setEntry]
  simp [hc b hb]

/- Lemmas about the record written by set_status. -/

theorem recUpdated_applySetStatus (data : Store) (i st : String) (det : Option String)
    (now : String) : recUpdated (applySetStatus data i st det now) i st now det := by
  unfold recUpdated applySetStatus
  refine ⟨_, lookup_setEntry_self _ _ _, ?_, ?_, ?_⟩
  · cases det with
    | none => rfl
    | some d => by_cases hd : d = "" <;> simp [hd]
  · cases det with
    | none => rfl
    | some d => by_cases hd : d = "" <;> simp [hd]
  · intro d hdet hne
    subst hdet
    simp [hne]

theorem lookup_applySetStatus_ne (data : Store) (i j st : String) (det : Option String)
    (now : String) (h : j ≠ i) :
    lookupRec (applySetStatus data i st det now) j = lookupRec data j := by
  simp only [applySetStatus]
  exact lookup_setEntry_ne _ _ _ _ h

theorem getStatusData_of_recUpdated (m : Store) (i st now : String) (det : Option String)
    (h : recUpdated m i st now det) : getStatusData m i = some st := by
  obtain ⟨r, hr, hs, _, _⟩ := h
  simp [getStatusData, hr, hs]

/- Handler-level store-write lemmas. -/

theorem setStatusT_spec (i st : String) (det : Option String) (now : String)
    (fs : FileState) (data : Store) (tr : List Event)
    (h : load_progress fs = .ok data) :
    setStatusT i st det now fs tr =
      .ok () (.valid (applySetStatus data i st det now))
        (tr ++ [.save (applySetStatus data i st det now)]) := by
  unfold setStatusT
  rw [h]

theorem setStatusMany_spec (ids : List String) (st : String) (det : Option String)
    (now : String) :
    ∀ (fs : FileState) (data : Store) (tr : List Event),
      load_progress fs = .ok data → complete data = true → ids ≠ [] →
      ∃ m' evs, setStatusMany ids st det now fs tr = .ok () (.valid m') (tr ++ evs) ∧
        complete m' = true ∧ (∀ e ∈ evs, isRemote e = false) ∧
        (∀ f, applySaves f evs = .valid m') ∧
        (∀ i ∈ ids, recUpdated m' i st now det) ∧
        (∀ j, j ∉ ids → lookupRec m' j = lookupRec data j) := by
  induction ids with
  | nil => intro fs data tr _ _ hne; exact absurd rfl hne
  | cons i rest ih =>
    intro fs data tr h hc _
    have hstep := setStatusT_spec i st det now fs data tr h
    have hc1 : complete (applySetStatus data i st det now) = true :=
      complete_applySetStatus data i st det now hc
    cases rest with
    | nil =>
      refine ⟨applySetStatus data i st det now, [.save (applySetStatus data i st det now)],
        ?_, hc1, ?_, ?_, ?_, ?_⟩
      · unfold setStatusMany
        rw [hstep]
        rfl
      · simp [isRemote]
      · intro f; rfl
      · intro i2 hi2
        rw [List.mem_singleton] at hi2
        subst hi2
        exact recUpdated_applySetStatus data i2 st det now
      · intro j hj
        rw [List.mem_singleton] at hj
        exact lookup_applySetStatus_ne data i j st det now hj
    | cons i2 rest2 =>
      have hload1 : load_progress (.valid (applySetStatus data i st det now)) =
          .ok (applySetStatus data i st det now) := load_valid_of_complete _ hc1
      obtain ⟨m', evs', heq, hc', hnr', hap', hupd', hframe'⟩ :=
        ih (.valid (applySetStatus data i st det now)) (applySetStatus data i st det now)
          (tr ++ [.save (applySetStatus data i st det now)]) hload1 hc1 (by simp)
      refine ⟨m', .save (applySetStatus data i st det now) :: evs', ?_, hc', ?_, ?_, ?_, ?_⟩
      · show setStatusMany (i :: i2 :: rest2) st det now fs tr = _
        unfold setStatusMany
        rw [hstep]
        dsimp only
        rw [heq]
        simp
      · intro e he
        rcases List.mem_cons.mp he with he | he
        · subst he; rfl
        · exact hnr' e he
      · intro f
        show applySaves (FileState.valid (applySetStatus data i st det now)) evs' = _
        exact hap' _
      · intro i3 hi3
        rcases List.mem_cons.mp hi3 with hi3 | hi3
        · subst hi3
          by_cases hmem : i3 ∈ i2 :: rest2
          · exact hupd' i3 hmem
          · obtain ⟨r, hr, h1, h2, h3⟩ := recUpdated_applySetStatus data i3 st det now
            exact ⟨r, (hframe' i3 hmem).trans hr, h1, h2, h3⟩
        · exact hupd' i3 hi3
      · intro j hj
        rw [List.mem_cons, not_or] at hj
        rw [hframe' j hj.2]
        exact lookup_applySetStatus_ne data i j st det now hj.1

theorem setStatusT_trace (i st : String) (det : Option String) (now : String)
    (fs : FileState) (tr : List Event) :
    ∃ ex, traceOf (setStatusT i st det now fs tr) = tr ++ ex ∧
      ∀ e ∈ ex, isRemote e = false := by
  unfold setStatusT
  cases h : load_progress fs with
  | error e => exact ⟨[], by simp [traceOf], by simp⟩
  | ok data => exact ⟨[.save (applySetStatus data i st det now)], by simp [traceOf], by simp [isRemote]⟩

theorem setStatusMany_trace (ids : List String) (st : String) (det : Option String)
    (now : String) :
    ∀ (fs : FileState) (tr : List Event),
      ∃ ex, traceOf (setStatusMany ids st det now fs tr) = tr ++ ex ∧
        ∀ e ∈ ex, isRemote e = false := by
  induction ids with
  | nil => intro fs tr; exact ⟨[], by simp [setStatusMany, traceOf], by simp⟩
  | cons i rest ih =>
    intro fs tr
    unfold setStatusMany
    cases h : setStatusT i st det now fs tr with
    | err e fs' tr' =>
      obtain ⟨ex, hex, hnr⟩ := setStatusT_trace i st det now fs tr
      rw [h] at hex
      exact ⟨ex, hex, hnr⟩
    | ok a fs' tr' =>
      obtain ⟨ex, hex, hnr⟩ := setStatusT_trace i st det now fs tr
      rw [h] at hex
      obtain ⟨ex2, hex2, hnr2⟩ := ih fs' tr'
      refine ⟨ex ++ ex2, ?_, ?_⟩
      · rw [hex2]
        simp only [traceOf] at hex
        rw [hex, List.append_assoc]
      · intro e he
        rcases List.mem_append.mp he with he | he
        · exact hnr e he
        · exact hnr2 e he

theorem handlerExcept1_trace (b now : String) (res : HRes Bool) :
    ∃ ex, traceOf (handlerExcept1 b now res) = traceOf res ++ ex ∧
      ∀ e ∈ ex, isRemote e = false := by
  cases res with
  | ok v fs tr => exact ⟨[], by simp [handlerExcept1, traceOf], by simp⟩
  | err e fs tr =>
    dsimp only [handlerExcept1]
    obtain ⟨ex, hex, hnr⟩ := setStatusT_trace b "failed" (some e) now fs tr
    cases h : setStatusT b "failed" (some e) now fs tr with
    | ok a fs' tr' =>
      rw [h] at hex
      exact ⟨ex, hex, hnr⟩
    | err e2 fs' tr' =>
      rw [h] at hex
      exact ⟨ex, hex, hnr⟩

theorem handlerExceptMany_trace (ids : List String) (now : String) (res : HRes Bool) :
    ∃ ex, traceOf (handlerExceptMany ids now res) = traceOf res ++ ex ∧
      ∀ e ∈ ex, isRemote e = false := by
  cases res with
  | ok v fs tr => exact ⟨[], by simp [handlerExceptMany, traceOf], by simp⟩
  | err e fs tr =>
    dsimp only [handlerExceptMany]
    obtain ⟨ex, hex, hnr⟩ := setStatusMany_trace ids "failed" (some e) now fs tr
    cases h : setStatusMany ids "failed" (some e) now fs tr with
    | ok a fs' tr' =>
      rw [h] at hex
      exact ⟨ex, hex, hnr⟩
    | err e2 fs' tr' =>
      rw [h] at hex
      exact ⟨ex, hex, hnr⟩

theorem traceOf_finish (b : Bool) (res : HRes Unit) :
    traceOf (finish b res) = traceOf res := by
  cases res <;> rfl

theorem finish_ok (b : Bool) (fs : FileState) (tr : List Event) :
    finish b (HRes.ok () fs tr) = HRes.ok b fs tr := rfl

/- Decomposition at the first remote event of a trace. -/

theorem firstRemote_decomp (x : String) (rest : List Event) :
    ∀ evs : List Event, (∀ e ∈ evs, isRemote e = false) →
      ∀ pre r post, evs ++ Event.remote x :: rest = pre ++ Event.remote r :: post →
        (∀ e ∈ pre, isRemote e = false) → pre = evs := by
  intro evs
  induction evs with
  | nil =>
    intro _ pre r post heq hpre
    cases pre with
    | nil => rfl
    | cons p pre2 =>
      rw [List.nil_append] at heq
      injection heq with h1 h2
      exfalso
      have hp := hpre p (List.mem_cons_self p pre2)
      rw [← h1] at hp
      simp [isRemote] at hp
  | cons ev evs2 ih =>
    intro hevs pre r post heq hpre
    cases pre with
    | nil =>
      rw [List.nil_append] at heq
      injection heq with h1 h2
      exfalso
      have he := hevs ev (List.mem_cons_self ev evs2)
      rw [h1] at he
      simp [isRemote] at he
    | cons p pre2 =>
      injection heq with h1 h2
      have hpe := ih (fun e he => hevs e (List.mem_cons_of_mem ev he)) pre2 r post h2
        (fun e he => hpre e (List.mem_cons_of_mem p he))
      rw [h1, hpe]

theorem applySaves_cons_save (fs : FileState) (m : Store) (evs : List Event) :
    applySaves fs (.save m :: evs) = applySaves (.valid m) evs := rfl

/-- Assemble the attempting-before-first-remote property from a trace of
the form: non-remote events whose replay yields `m1` (the attempting
marks), followed by a tail that either contains no remote event at all or
starts with the first remote invocation. -/
theorem abfr_build (ids : List String) (fs : FileState) (evs rest : List Event)
    (m1 : Store)
    (hnr : ∀ e ∈ evs, isRemote e = false)
    (hap : applySaves fs evs = .valid m1)
    (hst : ∀ i ∈ ids, getStatusData m1 i = some "attempting")
    (hrest : (∀ e ∈ rest, isRemote e = false) ∨
      ∃ x rest2, rest = Event.remote x :: rest2) :
    attemptingBeforeFirstRemote ids fs (evs ++ rest) := by
  intro pre r post heq hpre i hi
  rcases hrest with hall | ⟨x, rest2, hr⟩
  · exfalso
    have hmem : Event.remote r ∈ evs ++ rest := by
      rw [heq]; simp
    rcases List.mem_append.mp hmem with hm | hm
    · have := hnr _ hm; simp [isRemote] at this
    · have := hall _ hm; simp [isRemote] at this
  · subst hr
    have hpe : pre = evs := firstRemote_decomp x rest2 evs hnr pre r post heq hpre
    rw [hpe, hap]
    simpa [fileStatus] using hst i hi

/- Trace shape of each handler body: either the tail begins with the
body's first remote invocation, or the body performed no remote call. -/

theorem titanicBody_trace (env : Env) (act : List String) (fs : FileState)
    (tr : List Event) :
    (∃ rest2, traceOf (titanicBody env act fs tr) =
        tr ++ Event.remote "kaggle competitions submit (titanic)" :: rest2) ∨
    (∃ ex, traceOf (titanicBody env act fs tr) = tr ++ ex ∧
        ∀ e ∈ ex, isRemote e = false) := by
  unfold titanicBody
  by_cases ht : env.titanicTemplateExists
  · rw [if_pos ht]
    dsimp only
    left
    cases hs : env.titanicSubmit with
    | error e => exact ⟨[], by simp [traceOf]⟩
    | ok u =>
      obtain ⟨ex, hex, _⟩ := setStatusMany_trace act "earned" (some "competition=titanic")
        env.now fs (tr ++ [.remote "kaggle competitions submit (titanic)"])
      exact ⟨ex, by rw [traceOf_finish, hex, List.append_assoc]; rfl⟩
  · rw [if_neg ht]
    right
    obtain ⟨ex, hex, hnr⟩ := setStatusMany_trace act "failed" (some "template missing")
      env.now fs tr
    exact ⟨ex, by rw [traceOf_finish, hex], hnr⟩

theorem playgroundBody_trace (env : Env) (fs : FileState) (tr : List Event) :
    ∃ rest2, traceOf (playgroundBody env fs tr) =
      tr ++ Event.remote "kaggle competitions list (category playground)" :: rest2 := by
  unfold playgroundBody
  dsimp only
  cases hf : env.findPlayground with
  | error e => exact ⟨[], by simp [traceOf]⟩
  | ok o =>
    cases o with
    | none =>
      obtain ⟨ex, hex, _⟩ := setStatusT_trace "playground_competitor" "skipped"
        (some "no active playground competition") env.now fs
        (tr ++ [.remote "kaggle competitions list (category playground)"])
      exact ⟨ex, by rw [traceOf_finish, hex, List.append_assoc]; rfl⟩
    | some comp =>
      cases hd : env.playgroundDownload with
      | error e =>
        exact ⟨[.remote ("kaggle competitions download " ++ comp)],
          by simp [traceOf, List.append_assoc]⟩
      | ok u =>
        cases hsamp : env.playgroundSample with
        | none =>
          obtain ⟨ex, hex, _⟩ := setStatusT_trace "playground_competitor" "skipped"
            (some ("no sample_submission for " ++ comp)) env.now fs
            ((tr ++ [.remote "kaggle competitions list (category playground)"]) ++
              [.remote ("kaggle competitions download " ++ comp)])
          exact ⟨.remote ("kaggle competitions download " ++ comp) :: ex,
            by rw [traceOf_finish, hex]; simp [List.append_assoc]⟩
        | some s =>
          cases hsub : env.playgroundSubmit with
          | error e =>
            exact ⟨[.remote ("kaggle competitions download " ++ comp),
              .remote ("kaggle competitions submit " ++ comp)],
              by simp [traceOf, List.append_assoc]⟩
          | ok b =>
            cases b with
            | true =>
              obtain ⟨ex, hex, _⟩ := setStatusT_trace "playground_competitor" "earned"
                (some ("competition=" ++ comp)) env.now fs
                (((tr ++ [.remote "kaggle competitions list (category playground)"]) ++
                  [.remote ("kaggle competitions download " ++ comp)]) ++
                  [.remote ("kaggle competitions submit " ++ comp)])
              exact ⟨.remote ("kaggle competitions download " ++ comp) ::
                .remote ("kaggle competitions submit " ++ comp) :: ex,
                by rw [traceOf_finish, hex]; simp [List.append_assoc]⟩
            | false =>
              obtain ⟨ex, hex, _⟩ := setStatusT_trace "playground_competitor" "failed"
                (some ("submit failed for " ++ comp)) env.now fs
                (((tr ++ [.remote "kaggle competitions list (category playground)"]) ++
                  [.remote ("kaggle competitions download " ++ comp)]) ++
                  [.remote ("kaggle competitions submit " ++ comp)])
              exact ⟨.remote ("kaggle competitions download " ++ comp) ::
                .remote ("kaggle competitions submit " ++ comp) :: ex,
                by rw [traceOf_finish, hex]; simp [List.append_assoc]⟩

theorem communityBody_trace (env : Env) (fs : FileState) (tr : List Event) :
    ∃ rest2, traceOf (communityBody env fs tr) =
      tr ++ Event.remote "kaggle competitions list (category research)" :: rest2 := by
  unfold communityBody
  dsimp only
  cases hf : env.findResearch with
  | error e => exact ⟨[], by simp [traceOf]⟩
  | ok o =>
    cases o with
    | none =>
      obtain ⟨ex, hex, _⟩ := setStatusT_trace "community_competitor" "skipped"
        (some "no active research competition (CLI has no \x27community\x27 category)")
        env.now fs (tr ++ [.remote "kaggle competitions list (category research)"])
      exact ⟨ex, by rw [traceOf_finish, hex, List.append_assoc]; rfl⟩
    | some comp =>
      cases hd : env.communityDownload with
      | error e =>
        exact ⟨[.remote ("kaggle competitions download " ++ comp)],
          by simp [traceOf, List.append_assoc]⟩
      | ok u =>
        cases hsamp : env.communitySample with
        | none =>
          obtain ⟨ex, hex, _⟩ := setStatusT_trace "community_competitor" "skipped"
            (some ("no sample_submission for " ++ comp)) env.now fs
            ((tr ++ [.remote "kaggle competitions list (category research)"]) ++
              [.remote ("kaggle competitions download " ++ comp)])
          exact ⟨.remote ("kaggle competitions download " ++ comp) :: ex,
            by rw [traceOf_finish, hex]; simp [List.append_assoc]⟩
        | some s =>
          cases hsub : env.communitySubmit with
          | error e =>
            exact ⟨[.remote ("kaggle competitions download " ++ comp),
              .remote ("kaggle competitions submit " ++ comp)],
              by simp [traceOf, List.append_assoc]⟩
          | ok b =>
            cases b with
            | true =>
              obtain ⟨ex, hex, _⟩ := setStatusT_trace "community_competitor" "earned"
                (some ("competition=" ++ comp)) env.now fs
                (((tr ++ [.remote "kaggle competitions list (category research)"]) ++
                  [.remote ("kaggle competitions download " ++ comp)]) ++
                  [.remote ("kaggle competitions submit " ++ comp)])
              exact ⟨.remote ("kaggle competitions download " ++ comp) ::
                .remote ("kaggle competitions submit " ++ comp) :: ex,
                by rw [traceOf_finish, hex]; simp [List.append_assoc]⟩
            | false =>
              obtain ⟨ex, hex, _⟩ := setStatusT_trace "community_competitor" "failed"
                (some ("submit failed for " ++ comp)) env.now fs
                (((tr ++ [.remote "kaggle competitions list (category research)"]) ++
                  [.remote ("kaggle competitions download " ++ comp)]) ++
                  [.remote ("kaggle competitions submit " ++ comp)])
              exact ⟨.remote ("kaggle competitions download " ++ comp) ::
                .remote ("kaggle competitions submit " ++ comp) :: ex,
                by rw [traceOf_finish, hex]; simp [List.append_assoc]⟩

theorem codeBody_trace (env : Env) (act : List String) (fs : FileState)
    (tr : List Event) :
    (∃ rest2, traceOf (codeBody env act fs tr) =
        tr ++ Event.remote "kaggle kernels push (code submission notebook)" :: rest2) ∨
    (∃ ex, traceOf (codeBody env act fs tr) = tr ++ ex ∧
        ∀ e ∈ ex, isRemote e = false) := by
  unfold codeBody
  cases hp : env.codePrep with
  | error e => right; exact ⟨[], by simp [traceOf], by simp⟩
  | ok u =>
    dsimp only
    left
    cases hpush : env.codePush with
    | error e => exact ⟨[], by simp [traceOf]⟩
    | ok u2 =>
      obtain ⟨ex, hex, _⟩ := setStatusMany_trace act "earned"
        (some ("notebook=" ++ env.codeNbSlug)) env.now fs
        (tr ++ [.remote "kaggle kernels push (code submission notebook)"])
      exact ⟨ex, by rw [traceOf_finish, hex, List.append_assoc]; rfl⟩

theorem modelerBody_trace (env : Env) (fs : FileState) (tr : List Event) :
    (∃ rest2, traceOf (modelerBody env fs tr) =
        tr ++ Event.remote "kaggle kernels push (competition modeler notebook)" :: rest2) ∨
    (∃ ex, traceOf (modelerBody env fs tr) = tr ++ ex ∧
        ∀ e ∈ ex, isRemote e = false) := by
  unfold modelerBody
  cases hp : env.modelerPrep with
  | error e => right; exact ⟨[], by simp [traceOf], by simp⟩
  | ok u =>
    dsimp only
    left
    cases hpush : env.modelerPush with
    | error e => exact ⟨[], by simp [traceOf]⟩
    | ok u2 =>
      obtain ⟨ex, hex, _⟩ := setStatusT_trace "competition_modeler" "earned"
        (some ("notebook=" ++ env.modelerNbSlug)) env.now fs
        (tr ++ [.remote "kaggle kernels push (competition modeler notebook)"])
      exact ⟨ex, by rw [traceOf_finish, hex, List.append_assoc]; rfl⟩

/- Unfolding equations for the handlers along the eligible and the
vacuous-skip paths. -/

theorem isEmpty_false_of_ne_nil {α : Type} (l : List α) (h : l ≠ []) :
    l.isEmpty = false := by
  cases l with
  | nil => exact absurd rfl h
  | cons a as => rfl

theorem submit_titanic_vacuous (env : Env) (fs : FileState) (data : Store)
    (h : load_progress fs = .ok data)
    (hz : titanicBadgeIds.filter (shouldAttemptData data) = []) :
    submit_titanic env fs = .ok true fs [] := by
  unfold submit_titanic
  rw [h]
  dsimp only
  rw [hz]
  rfl

theorem code_submission_vacuous (env : Env) (fs : FileState) (data : Store)
    (h : load_progress fs = .ok data)
    (hz : codeBadgeIds.filter (shouldAttemptData data) = []) :
    code_submission env fs = .ok true fs [] := by
  unfold code_submission
  rw [h]
  dsimp only
  rw [hz]
  rfl

theorem submit_playground_vacuous (env : Env) (fs : FileState) (data : Store)
    (h : load_progress fs = .ok data)
    (hz : shouldAttemptData data "playground_competitor" = false) :
    submit_playground env fs = .ok true fs [] := by
  unfold submit_playground
  rw [h]
  dsimp only
  rw [hz]
  rfl

theorem submit_community_vacuous (env : Env) (fs : FileState) (data : Store)
    (h : load_progress fs = .ok data)
    (hz : shouldAttemptData data "community_competitor" = false) :
    submit_community env fs = .ok true fs [] := by
  unfold submit_community
  rw [h]
  dsimp only
  rw [hz]
  rfl

theorem competition_modeler_vacuous (env : Env) (fs : FileState) (data : Store)
    (h : load_progress fs = .ok data)
    (hz : shouldAttemptData data "competition_modeler" = false) :
    competition_modeler env fs = .ok true fs [] := by
  unfold competition_modeler
  rw [h]
  dsimp only
  rw [hz]
  rfl

theorem submit_titanic_eq (env : Env) (fs : FileState) (data : Store) (m1 : Store)
    (evs : List Event) (h : load_progress fs = .ok data)
    (hne : titanicBadgeIds.filter (shouldAttemptData data) ≠ [])
    (hssm : setStatusMany (titanicBadgeIds.filter (shouldAttemptData data))
      "attempting" none env.now fs [] = .ok () (.valid m1) evs) :
    submit_titanic env fs =
      handlerExceptMany (titanicBadgeIds.filter (shouldAttemptData data)) env.now
        (titanicBody env (titanicBadgeIds.filter (shouldAttemptData data))
          (.valid m1) evs) := by
  unfold submit_titanic
  rw [h]
  dsimp only
  rw [isEmpty_false_of_ne_nil _ hne]
  rw [hssm]
  rfl

theorem code_submission_eq (env : Env) (fs : FileState) (data : Store) (m1 : Store)
    (evs : List Event) (h : load_progress fs = .ok data)
    (hne : codeBadgeIds.filter (shouldAttemptData data) ≠ [])
    (hssm : setStatusMany (codeBadgeIds.filter (shouldAttemptData data))
      "attempting" none env.now fs [] = .ok () (.valid m1) evs) :
    code_submission env fs =
      handlerExceptMany (codeBadgeIds.filter (shouldAttemptData data)) env.now
        (codeBody env (codeBadgeIds.filter (shouldAttemptData data))
          (.valid m1) evs) := by
  unfold code_submission
  rw [h]
  dsimp only
  rw [isEmpty_false_of_ne_nil _ hne]
  rw [hssm]
  rfl

theorem submit_playground_eq (env : Env) (fs : FileState) (data : Store)
    (h : load_progress fs = .ok data)
    (hel : shouldAttemptData data "playground_competitor" = true) :
    submit_playground env fs = handlerExcept1 "playground_competitor" env.now
      (playgroundBody env
        (.valid (applySetStatus data "playground_competitor" "attempting" none env.now))
        [.save (applySetStatus data "playground_competitor" "attempting" none env.now)]) := by
  unfold submit_playground
  rw [h]
  dsimp only
  rw [if_pos hel]
  rw [setStatusT_spec "playground_competitor" "attempting" none env.now fs data [] h]
  rfl

theorem submit_community_eq (env : Env) (fs : FileState) (data : Store)
    (h : load_progress fs = .ok data)
    (hel : shouldAttemptData data "community_competitor" = true) :
    submit_community env fs = handlerExcept1 "community_competitor" env.now
      (communityBody env
        (.valid (applySetStatus data "community_competitor" "attempting" none env.now))
        [.save (applySetStatus data "community_competitor" "attempting" none env.now)]) := by
  unfold submit_community
  rw [h]
  dsimp only
  rw [if_pos hel]
  rw [setStatusT_spec "community_competitor" "attempting" none env.now fs data [] h]
  rfl

theorem competition_modeler_eq (env : Env) (fs : FileState) (data : Store)
    (h : load_progress fs = .ok data)
    (hel : shouldAttemptData data "competition_modeler" = true) :
    competition_modeler env fs = handlerExcept1 "competition_modeler" env.now
      (modelerBody env
        (.valid (applySetStatus data "competition_modeler" "attempting" none env.now))
        [.save (applySetStatus data "competition_modeler" "attempting" none env.now)]) := by
  unfold competition_modeler
  rw [h]
  dsimp only
  rw [if_pos hel]
  rw [setStatusT_spec "competition_modeler" "attempting" none env.now fs data [] h]
  rfl

/- Generic facts about load_progress used by several claims. -/

theorem load_progress_eq (fs : FileState) (data : Store)
    (h : load_progress fs = .ok data) : data = ensureAll (persisted fs) := by
  cases fs with
  | absent =>
    simp only [load_progress, Except.ok.injEq] at h
    rw [← h]; rfl
  | valid m =>
    simp only [load_progress, Except.ok.injEq] at h
    rw [← h]; rfl
  | invalid => simp [load_progress] at h

theorem any_id_eq_false (i : String) (h : i ∉ catalogIds) :
    ALL_BADGES.any (fun b => decide (b.id = i)) = false := by
  rw [Bool.eq_false_iff]
  intro hc
  rw [List.any_eq_true] at hc
  obtain ⟨b, hb, hbi⟩ := hc
  rw [decide_eq_true_eq] at hbi
  exact h (hbi ▸ List.mem_map_of_mem (·.id) hb)

/-- C1 counterexample: `save_progress` writes the progress file with a
single direct in-place `write_text`, so among the crash-observable disk
states of `save(m)` there is one whose progress file is partially written
(unparseable), and a subsequent `load()` hits it as a parse error instead
of seeing the old or the new mapping.  This refutes the claimed
write-to-temp-and-rename (or equivalent) atomicity discipline. -/
theorem C1_counterexample :
    Disk.mk FileState.invalid FileState.absent ∈
      crashStates (Disk.mk (FileState.valid demoStoreOld) FileState.absent)
        (save_progress_ops demoStoreNew) ∧
    load_progress FileState.invalid = Except.error jsonParseError := by
  constructor
  · simp [crashStates, midStates, applyOp, save_progress_ops]
  · rfl

/-- C1 amended: `save(m)` replaces the persisted store content wholesale —
an uninterrupted save leaves the progress file holding exactly the saved
mapping and touches nothing else — but it does so with one direct
in-place write (no temp file, no rename), so a crash mid-write can leave
a partially-written, unparseable progress file observable by a subsequent
`load()`. -/
theorem C1_amended_direct_write (data : Store) (d : Disk) :
    save_progress_ops data = [FsOp.writeMain data] ∧
    applyOps d (save_progress_ops data) = Disk.mk (save_progress data) d.temp ∧
    save_progress data = FileState.valid data ∧
    Disk.mk FileState.invalid d.temp ∈ crashStates d (save_progress_ops data) := by
  refine ⟨rfl, rfl, rfl, ?_⟩
  simp [crashStates, midStates, applyOp, save_progress_ops]

/-- C3: when the persisted progress file exists but its content is not
parseable, `load_progress` raises (returns an error) instead of silently
returning an all-pending mapping, and the phase 2 orchestration run
terminates with that error having performed no durable write and no
remote action (empty event trace): no handler performs any action. -/
theorem C3_unparseable_store_fatal (env : Env) :
    load_progress FileState.invalid = Except.error jsonParseError ∧
    (∀ data : Store, load_progress FileState.invalid ≠ Except.ok data) ∧
    phase2_run env FileState.invalid =
      HRes.err jsonParseError FileState.invalid [] := by
  refine ⟨rfl, ?_, rfl⟩
  intro data hcontra
  simp [load_progress] at hcontra

/-- C4: `should_attempt` returns true exactly when the badge's current
status (as `get_status` reports it from the loaded mapping) is pending or
failed; any other status string — in particular attempting, earned, or
skipped — and a JSON-null status all yield false. -/
theorem C4_should_attempt_iff (fs : FileState) (badge_id : String) (data : Store)
    (h : load_progress fs = .ok data) :
    (should_attempt badge_id fs = .ok true ↔
      getStatusData data badge_id = some "pending" ∨
        getStatusData data badge_id = some "failed") ∧
    (∀ s, getStatusData data badge_id = some s → s ≠ "pending" → s ≠ "failed" →
      should_attempt badge_id fs = .ok false) ∧
    (getStatusData data badge_id = none → should_attempt badge_id fs = .ok false) := by
  have hrun : should_attempt badge_id fs =
      .ok (statusEligible (getStatusData data badge_id)) := by
    unfold should_attempt get_status
    rw [h]
    rfl
  refine ⟨?_, ?_, ?_⟩
  · rw [hrun]
    cases hs : getStatusData data badge_id with
    | none => simp [statusEligible]
    | some s => simp [statusEligible]
  · intro s hs h1 h2
    rw [hrun, hs]
    simp [statusEligible, h1, h2]
  · intro hs
    rw [hrun, hs]
    rfl

/-- C4 witness: on a fresh (absent) store, `should_attempt "competitor"`
is true because the loaded status is pending. -/
theorem C4_should_attempt_iff_witness :
    load_progress FileState.absent = Except.ok (ensureAll []) ∧
    ((should_attempt "competitor" FileState.absent = .ok true ↔
      getStatusData (ensureAll []) "competitor" = some "pending" ∨
        getStatusData (ensureAll []) "competitor" = some "failed") ∧
    (∀ s, getStatusData (ensureAll []) "competitor" = some s →
      s ≠ "pending" → s ≠ "failed" →
      should_attempt "competitor" FileState.absent = .ok false) ∧
    (getStatusData (ensureAll []) "competitor" = none →
      should_attempt "competitor" FileState.absent = .ok false)) :=
  ⟨rfl, C4_should_attempt_iff FileState.absent "competitor" (ensureAll []) rfl⟩

/-- C5: for any on-disk state (absent file included, unique persisted
keys as json.loads guarantees), the loaded mapping holds exactly one
record per catalog id, synthesizes status pending with null (absent)
updated and details for every catalog id missing from the persisted
state, and loading leaves the file untouched and performs no durable
write. -/
theorem C5_load_catalog_complete (fs : FileState) (data : Store)
    (h : load_progress fs = .ok data)
    (hnd : (storeKeys (persisted fs)).Nodup) :
    (∀ b ∈ ALL_BADGES, countKey data b.id = 1) ∧
    (∀ b ∈ ALL_BADGES, hasKey (persisted fs) b.id = false →
      lookupRec data b.id = some initRecord) ∧
    loadT fs [] = .ok data fs [] := by
  have hdata := load_progress_eq fs data h
  refine ⟨?_, ?_, ?_⟩
  · intro b hb
    rw [hdata]
    apply countKey_eq_one
    · exact nodup_ensureFrom ALL_BADGES (persisted fs) hnd
    · simp only [ensureAll]
      rw [hasKey_ensureFrom]
      have hany : ALL_BADGES.any (fun b2 => decide (b2.id = b.id)) = true :=
        List.any_eq_true.mpr ⟨b, hb, by simp⟩
      simp [hany]
  · intro b hb hb2
    rw [hdata]
    simp only [ensureAll]
    rw [lookup_ensureFrom, lookupRec_none_of_not_hasKey _ _ hb2]
    have hany : ALL_BADGES.any (fun b2 => decide (b2.id = b.id)) = true :=
      List.any_eq_true.mpr ⟨b, hb, by simp⟩
    simp [hany]
  · unfold loadT
    rw [h]

/-- C5 witness: loading from an absent file yields a catalog-complete
all-pending mapping without touching the disk. -/
theorem C5_load_catalog_complete_witness :
    load_progress FileState.absent = Except.ok (ensureAll []) ∧
    (storeKeys (persisted FileState.absent)).Nodup ∧
    ((∀ b ∈ ALL_BADGES, countKey (ensureAll []) b.id = 1) ∧
     (∀ b ∈ ALL_BADGES, hasKey (persisted FileState.absent) b.id = false →
       lookupRec (ensureAll []) b.id = some initRecord) ∧
     loadT FileState.absent [] = .ok (ensureAll []) FileState.absent []) :=
  ⟨rfl, List.nodup_nil,
    C5_load_catalog_complete FileState.absent (ensureAll []) rfl List.nodup_nil⟩

/-- C6: `set_status` loads, then unconditionally overwrites the record's
status, stamps `updated` with the current time, sets `details` exactly
when a truthy (non-None, non-empty) value is supplied, and keeps the
previous details value when the argument is None or the empty string,
then saves the full mapping. -/
theorem C6_set_status_overwrite (badge_id status : String) (details : Option String)
    (now : String) (fs : FileState) (data : Store)
    (h : load_progress fs = .ok data) :
    ∃ m2, set_status badge_id status details now fs = .ok (FileState.valid m2) ∧
      ∃ r, lookupRec m2 badge_id = some r ∧
        r.status = some (some status) ∧
        r.updated = some (some now) ∧
        (∀ d, details = some d → d ≠ "" → r.details = some (some d)) ∧
        (details = none → r.details = ((lookupRec data badge_id).getD {}).details) ∧
        (details = some "" → r.details = ((lookupRec data badge_id).getD {}).details) := by
  refine ⟨applySetStatus data badge_id status details now, ?_, ?_⟩
  · unfold set_status
    rw [h]
    rfl
  · unfold applySetStatus
    dsimp only
    refine ⟨_, lookup_setEntry_self _ _ _, ?_, ?_, ?_, ?_, ?_⟩
    · cases details with
      | none => rfl
      | some d => by_cases hd : d = "" <;> simp [hd]
    · cases details with
      | none => rfl
      | some d => by_cases hd : d = "" <;> simp [hd]
    · intro d hdet hne
      subst hdet
      simp [hne]
    · intro hdet
      subst hdet
      rfl
    · intro hdet
      subst hdet
      simp

/-- C6 witness: concrete transition of the competitor badge to earned
with a non-empty detail on a fresh store. -/
theorem C6_set_status_overwrite_witness :
    load_progress FileState.absent = Except.ok (ensureAll []) ∧
    (∃ m2, set_status "competitor" "earned" (some "competition=titanic")
        "2026-01-01T00:00:00+00:00" FileState.absent = .ok (FileState.valid m2) ∧
      ∃ r, lookupRec m2 "competitor" = some r ∧
        r.status = some (some "earned") ∧
        r.updated = some (some "2026-01-01T00:00:00+00:00") ∧
        (∀ d, (some "competition=titanic" : Option String) = some d → d ≠ "" →
          r.details = some (some d)) ∧
        ((some "competition=titanic" : Option String) = none →
          r.details = ((lookupRec (ensureAll []) "competitor").getD {}).details) ∧
        ((some "competition=titanic" : Option String) = some "" →
          r.details = ((lookupRec (ensureAll []) "competitor").getD {}).details)) :=
  ⟨rfl, C6_set_status_overwrite "competitor" "earned" (some "competition=titanic")
    "2026-01-01T00:00:00+00:00" FileState.absent (ensureAll []) rfl⟩

/-- C9: an id present in the persisted store but absent from the Catalog
is kept by `load_progress` with its record unchanged (never deleted), and
every save performed by `set_status` on a different id writes the unknown
entry back unchanged. -/
theorem C9_unknown_id_preserved (m : Store) (uid : String) (data : Store)
    (hload : load_progress (.valid m) = .ok data)
    (hu : hasKey m uid = true)
    (hcat : uid ∉ catalogIds) :
    lookupRec data uid = lookupRec m uid ∧ hasKey data uid = true ∧
    ∀ (badge_id status : String) (details : Option String) (now : String)
      (fs2 : FileState),
      badge_id ≠ uid →
      set_status badge_id status details now (.valid m) = .ok fs2 →
      ∃ m2, fs2 = .valid m2 ∧ lookupRec m2 uid = lookupRec m uid := by
  have hp : persisted (FileState.valid m) = m := rfl
  have hdata : data = ensureAll m := by
    rw [load_progress_eq _ _ hload, hp]
  have h1 : lookupRec (ensureAll m) uid = lookupRec m uid := by
    simp only [ensureAll]
    rw [lookup_ensureFrom]
    cases hlm : lookupRec m uid with
    | some r => rfl
    | none =>
      exfalso
      have hs := lookupRec_isSome m uid
      rw [hlm, hu] at hs
      simp at hs
  refine ⟨?_, ?_, ?_⟩
  · rw [hdata]
    exact h1
  · rw [hdata, ← lookupRec_isSome, h1, lookupRec_isSome]
    exact hu
  · intro bid st det now fs2 hne hset
    unfold set_status at hset
    simp only [load_progress, Except.map] at hset
    rw [Except.ok.injEq] at hset
    refine ⟨applySetStatus (ensureAll m) bid st det now, hset.symm, ?_⟩
    rw [lookup_applySetStatus_ne _ _ _ _ _ _ (Ne.symm hne)]
    exact h1

/-- C9 witness: a legacy id unknown to the catalog survives a load and a
set_status on another id. -/
theorem C9_unknown_id_preserved_witness :
    load_progress (.valid demoLegacyStore) = Except.ok (ensureAll demoLegacyStore) ∧
    hasKey demoLegacyStore "legacy_badge" = true ∧
    "legacy_badge" ∉ catalogIds ∧
    (lookupRec (ensureAll demoLegacyStore) "legacy_badge" =
        lookupRec demoLegacyStore "legacy_badge" ∧
      hasKey (ensureAll demoLegacyStore) "legacy_badge" = true ∧
      ∀ (badge_id status : String) (details : Option String) (now : String)
        (fs2 : FileState),
        badge_id ≠ "legacy_badge" →
        set_status badge_id status details now (.valid demoLegacyStore) = .ok fs2 →
        ∃ m2, fs2 = .valid m2 ∧
          lookupRec m2 "legacy_badge" = lookupRec demoLegacyStore "legacy_badge") :=
  ⟨rfl, rfl, by decide,
    C9_unknown_id_preserved demoLegacyStore "legacy_badge" (ensureAll demoLegacyStore)
      rfl rfl (by decide)⟩

/-- C10: an id absent from both the persisted store and the Catalog reads
as pending and is attempt-eligible: a handler targeting it treats it as
attemptable rather than failing. -/
theorem C10_unknown_id_attemptable (fs : FileState) (badge_id : String) (data : Store)
    (h : load_progress fs = .ok data)
    (hpers : hasKey (persisted fs) badge_id = false)
    (hcat : badge_id ∉ catalogIds) :
    get_status badge_id fs = .ok (some "pending") ∧
    should_attempt badge_id fs = .ok true := by
  have hdata := load_progress_eq fs data h
  have hnone : lookupRec data badge_id = none := by
    rw [hdata]
    simp only [ensureAll]
    rw [lookup_ensureFrom, lookupRec_none_of_not_hasKey _ _ hpers]
    simp [any_id_eq_false badge_id hcat]
  have hgs : getStatusData data badge_id = some "pending" := by
    simp [getStatusData, hnone]
  constructor
  · unfold get_status
    rw [h]
    simp [Except.map, hgs]
  · unfold should_attempt get_status
    rw [h]
    simp [Except.map, hgs, statusEligible]

/-- C10 witness: the id not_in_any_catalog is pending and eligible on a
fresh store. -/
theorem C10_unknown_id_attemptable_witness :
    load_progress FileState.absent = Except.ok (ensureAll []) ∧
    hasKey (persisted FileState.absent) "not_in_any_catalog" = false ∧
    "not_in_any_catalog" ∉ catalogIds ∧
    (get_status "not_in_any_catalog" FileState.absent = .ok (some "pending") ∧
     should_attempt "not_in_any_catalog" FileState.absent = .ok true) :=
  ⟨rfl, rfl, by decide,
    C10_unknown_id_attemptable FileState.absent "not_in_any_catalog" (ensureAll [])
      rfl rfl (by decide)⟩

theorem runNamed_cons_ok (name : String) (fn : FileState → HRes Bool)
    (rest : List (String × (FileState → HRes Bool))) (fs : FileState) (b : Bool)
    (fs2 : FileState) (tr2 : List Event) (att suc : Nat) (tr0 : List Event)
    (hfn : fn fs = .ok b fs2 tr2) :
    runNamed ((name, fn) :: rest) fs att suc tr0 =
      runNamed rest fs2 (att + 1) (if b then suc + 1 else suc) (tr0 ++ tr2) := by
  conv_lhs => unfold runNamed
  rw [hfn]

/-- C8: a handler all of whose targets are attempt-ineligible performs no
store write and no remote action and reports success (each of the five
phase 2 handlers returns True with the file untouched and an empty event
trace), and the orchestrator counts every such handler in both the
attempted and the succeeded counter: a run in which every handler is
vacuous returns (5, 5) with no effect at all. -/
theorem C8_vacuous_success (env : Env) (fs : FileState) (data : Store)
    (h : load_progress fs = .ok data)
    (hin : ∀ i ∈ phase2TargetIds, shouldAttemptData data i = false) :
    submit_titanic env fs = .ok true fs [] ∧
    submit_playground env fs = .ok true fs [] ∧
    submit_community env fs = .ok true fs [] ∧
    code_submission env fs = .ok true fs [] ∧
    competition_modeler env fs = .ok true fs [] ∧
    phase2_run env fs = .ok (5, 5) fs [] := by
  have h1 : shouldAttemptData data "competitor" = false := hin _ (by decide)
  have h2 : shouldAttemptData data "getting_started_competitor" = false := hin _ (by decide)
  have h3 : shouldAttemptData data "playground_competitor" = false := hin _ (by decide)
  have h4 : shouldAttemptData data "community_competitor" = false := hin _ (by decide)
  have h5 : shouldAttemptData data "code_submitter" = false := hin _ (by decide)
  have h6 : shouldAttemptData data "notebook_modeler" = false := hin _ (by decide)
  have h7 : shouldAttemptData data "competition_modeler" = false := hin _ (by decide)
  have ht : titanicBadgeIds.filter (shouldAttemptData data) = [] := by
    simp [titanicBadgeIds, List.filter_cons, h1, h2]
  have hcode : codeBadgeIds.filter (shouldAttemptData data) = [] := by
    simp [codeBadgeIds, List.filter_cons, h5, h6]
  have e1 := submit_titanic_vacuous env fs data h ht
  have e2 := submit_playground_vacuous env fs data h h3
  have e3 := submit_community_vacuous env fs data h h4
  have e4 := code_submission_vacuous env fs data h hcode
  have e5 := competition_modeler_vacuous env fs data h h7
  refine ⟨e1, e2, e3, e4, e5, ?_⟩
  unfold phase2_run phase2Actions
  rw [runNamed_cons_ok _ _ _ _ _ _ _ _ _ _ e1,
      runNamed_cons_ok _ _ _ _ _ _ _ _ _ _ e2,
      runNamed_cons_ok _ _ _ _ _ _ _ _ _ _ e3,
      runNamed_cons_ok _ _ _ _ _ _ _ _ _ _ e4,
      runNamed_cons_ok _ _ _ _ _ _ _ _ _ _ e5]
  rfl

/-- C8 witness: with every phase 2 target already earned, each handler
skips vacuously and the run counts (5, 5). -/
theorem C8_vacuous_success_witness :
    load_progress (.valid allEarnedStore) = Except.ok (ensureAll allEarnedStore) ∧
    (∀ i ∈ phase2TargetIds, shouldAttemptData (ensureAll allEarnedStore) i = false) ∧
    (submit_titanic envDemo (.valid allEarnedStore) = .ok true (.valid allEarnedStore) [] ∧
     submit_playground envDemo (.valid allEarnedStore) = .ok true (.valid allEarnedStore) [] ∧
     submit_community envDemo (.valid allEarnedStore) = .ok true (.valid allEarnedStore) [] ∧
     code_submission envDemo (.valid allEarnedStore) = .ok true (.valid allEarnedStore) [] ∧
     competition_modeler envDemo (.valid allEarnedStore) = .ok true (.valid allEarnedStore) [] ∧
     phase2_run envDemo (.valid allEarnedStore) = .ok (5, 5) (.valid allEarnedStore) []) :=
  ⟨rfl, by decide,
    C8_vacuous_success envDemo (.valid allEarnedStore) (ensureAll allEarnedStore)
      rfl (by decide)⟩

/-- C7: every phase 2 handler with at least one attempt-eligible target
durably marks each eligible target attempting before its first remote
invocation: in the handler's event trace, at the moment of the first
remote event the disk state produced by the durable writes so far already
records every eligible target as attempting. -/
theorem C7_attempting_marked_before_remote (env : Env) (fs : FileState) (data : Store)
    (h : load_progress fs = .ok data) :
    (titanicBadgeIds.filter (shouldAttemptData data) ≠ [] →
      attemptingBeforeFirstRemote (titanicBadgeIds.filter (shouldAttemptData data)) fs
        (traceOf (submit_titanic env fs))) ∧
    (shouldAttemptData data "playground_competitor" = true →
      attemptingBeforeFirstRemote ["playground_competitor"] fs
        (traceOf (submit_playground env fs))) ∧
    (shouldAttemptData data "community_competitor" = true →
      attemptingBeforeFirstRemote ["community_competitor"] fs
        (traceOf (submit_community env fs))) ∧
    (codeBadgeIds.filter (shouldAttemptData data) ≠ [] →
      attemptingBeforeFirstRemote (codeBadgeIds.filter (shouldAttemptData data)) fs
        (traceOf (code_submission env fs))) ∧
    (shouldAttemptData data "competition_modeler" = true →
      attemptingBeforeFirstRemote ["competition_modeler"] fs
        (traceOf (competition_modeler env fs))) := by
  have hcomp := complete_load fs data h
  refine ⟨?_, ?_, ?_, ?_, ?_⟩
  · -- Titanic
    intro hne
    obtain ⟨m1, evs, hssm, hc1, hnr, hap, hupd, _⟩ :=
      setStatusMany_spec (titanicBadgeIds.filter (shouldAttemptData data))
        "attempting" none env.now fs data [] h hcomp hne
    simp only [List.nil_append] at hssm
    rw [submit_titanic_eq env fs data m1 evs h hne hssm]
    have hst : ∀ i ∈ titanicBadgeIds.filter (shouldAttemptData data),
        getStatusData m1 i = some "attempting" :=
      fun i hi => getStatusData_of_recUpdated m1 i "attempting" env.now none (hupd i hi)
    obtain ⟨ex2, hex2, hnr2⟩ := handlerExceptMany_trace
      (titanicBadgeIds.filter (shouldAttemptData data)) env.now
      (titanicBody env (titanicBadgeIds.filter (shouldAttemptData data)) (.valid m1) evs)
    rw [hex2]
    rcases titanicBody_trace env (titanicBadgeIds.filter (shouldAttemptData data))
      (.valid m1) evs with ⟨rest2, hb⟩ | ⟨ex, hb, hnrex⟩
    · rw [hb, List.append_assoc]
      exact abfr_build _ fs evs _ m1 hnr (hap fs) hst
        (Or.inr ⟨_, rest2 ++ ex2, by rw [List.cons_append]⟩)
    · rw [hb, List.append_assoc]
      refine abfr_build _ fs evs (ex ++ ex2) m1 hnr (hap fs) hst (Or.inl ?_)
      intro e he
      rcases List.mem_append.mp he with he | he
      · exact hnrex e he
      · exact hnr2 e he
  · -- Playground
    intro hel
    rw [submit_playground_eq env fs data h hel]
    have hst : ∀ i ∈ (["playground_competitor"] : List String),
        getStatusData
          (applySetStatus data "playground_competitor" "attempting" none env.now) i =
          some "attempting" := by
      intro i hi
      rw [List.mem_singleton] at hi
      subst hi
      exact getStatusData_of_recUpdated _ _ _ _ none
        (recUpdated_applySetStatus data _ "attempting" none env.now)
    obtain ⟨ex2, hex2, hnr2⟩ := handlerExcept1_trace "playground_competitor" env.now
      (playgroundBody env
        (.valid (applySetStatus data "playground_competitor" "attempting" none env.now))
        [.save (applySetStatus data "playground_competitor" "attempting" none env.now)])
    rw [hex2]
    obtain ⟨rest2, hb⟩ := playgroundBody_trace env
      (.valid (applySetStatus data "playground_competitor" "attempting" none env.now))
      [.save (applySetStatus data "playground_competitor" "attempting" none env.now)]
    rw [hb, List.append_assoc]
    exact abfr_build _ fs
      [.save (applySetStatus data "playground_competitor" "attempting" none env.now)]
      _ (applySetStatus data "playground_competitor" "attempting" none env.now)
      (by intro e he; rw [List.mem_singleton] at he; subst he; rfl) rfl hst
      (Or.inr ⟨_, rest2 ++ ex2, by rw [List.cons_append]⟩)
  · -- Community
    intro hel
    rw [submit_community_eq env fs data h hel]
    have hst : ∀ i ∈ (["community_competitor"] : List String),
        getStatusData
          (applySetStatus data "community_competitor" "attempting" none env.now) i =
          some "attempting" := by
      intro i hi
      rw [List.mem_singleton] at hi
      subst hi
      exact getStatusData_of_recUpdated _ _ _ _ none
        (recUpdated_applySetStatus data _ "attempting" none env.now)
    obtain ⟨ex2, hex2, hnr2⟩ := handlerExcept1_trace "community_competitor" env.now
      (communityBody env
        (.valid (applySetStatus data "community_competitor" "attempting" none env.now))
        [.save (applySetStatus data "community_competitor" "attempting" none env.now)])
    rw [hex2]
    obtain ⟨rest2, hb⟩ := communityBody_trace env
      (.valid (applySetStatus data "community_competitor" "attempting" none env.now))
      [.save (applySetStatus data "community_competitor" "attempting" none env.now)]
    rw [hb, List.append_assoc]
    exact abfr_build _ fs
      [.save (applySetStatus data "community_competitor" "attempting" none env.now)]
      _ (applySetStatus data "community_competitor" "attempting" none env.now)
      (by intro e he; rw [List.mem_singleton] at he; subst he; rfl) rfl hst
      (Or.inr ⟨_, rest2 ++ ex2, by rw [List.cons_append]⟩)
  · -- Code submission
    intro hne
    obtain ⟨m1, evs, hssm, hc1, hnr, hap, hupd, _⟩ :=
      setStatusMany_spec (codeBadgeIds.filter (shouldAttemptData data))
        "attempting" none env.now fs data [] h hcomp hne
    simp only [List.nil_append] at hssm
    rw [code_submission_eq env fs data m1 evs h hne hssm]
    have hst : ∀ i ∈ codeBadgeIds.filter (shouldAttemptData data),
        getStatusData m1 i = some "attempting" :=
      fun i hi => getStatusData_of_recUpdated m1 i "attempting" env.now none (hupd i hi)
    obtain ⟨ex2, hex2, hnr2⟩ := handlerExceptMany_trace
      (codeBadgeIds.filter (shouldAttemptData data)) env.now
      (codeBody env (codeBadgeIds.filter (shouldAttemptData data)) (.valid m1) evs)
    rw [hex2]
    rcases codeBody_trace env (codeBadgeIds.filter (shouldAttemptData data))
      (.valid m1) evs with ⟨rest2, hb⟩ | ⟨ex, hb, hnrex⟩
    · rw [hb, List.append_assoc]
      exact abfr_build _ fs evs _ m1 hnr (hap fs) hst
        (Or.inr ⟨_, rest2 ++ ex2, by rw [List.cons_append]⟩)
    · rw [hb, List.append_assoc]
      refine abfr_build _ fs evs (ex ++ ex2) m1 hnr (hap fs) hst (Or.inl ?_)
      intro e he
      rcases List.mem_append.mp he with he | he
      · exact hnrex e he
      · exact hnr2 e he
  · -- Competition modeler
    intro hel
    rw [competition_modeler_eq env fs data h hel]
    have hst : ∀ i ∈ (["competition_modeler"] : List String),
        getStatusData
          (applySetStatus data "competition_modeler" "attempting" none env.now) i =
          some "attempting" := by
      intro i hi
      rw [List.mem_singleton] at hi
      subst hi
      exact getStatusData_of_recUpdated _ _ _ _ none
        (recUpdated_applySetStatus data _ "attempting" none env.now)
    obtain ⟨ex2, hex2, hnr2⟩ := handlerExcept1_trace "competition_modeler" env.now
      (modelerBody env
        (.valid (applySetStatus data "competition_modeler" "attempting" none env.now))
        [.save (applySetStatus data "competition_modeler" "attempting" none env.now)])
    rw [hex2]
    rcases modelerBody_trace env
      (.valid (applySetStatus data "competition_modeler" "attempting" none env.now))
      [.save (applySetStatus data "competition_modeler" "attempting" none env.now)]
      with ⟨rest2, hb⟩ | ⟨ex, hb, hnrex⟩
    · rw [hb, List.append_assoc]
      exact abfr_build _ fs
        [.save (applySetStatus data "competition_modeler" "attempting" none env.now)]
        _ (applySetStatus data "competition_modeler" "attempting" none env.now)
        (by intro e he; rw [List.mem_singleton] at he; subst he; rfl) rfl hst
        (Or.inr ⟨_, rest2 ++ ex2, by rw [List.cons_append]⟩)
    · rw [hb, List.append_assoc]
      refine abfr_build _ fs
        [.save (applySetStatus data "competition_modeler" "attempting" none env.now)]
        (ex ++ ex2) (applySetStatus data "competition_modeler" "attempting" none env.now)
        (by intro e he; rw [List.mem_singleton] at he; subst he; rfl) rfl hst (Or.inl ?_)
      intro e he
      rcases List.mem_append.mp he with he | he
      · exact hnrex e he
      · exact hnr2 e he

/-- C7 witness: on a fresh store all targets are eligible and each
handler satisfies the attempting-before-first-remote discipline. -/
theorem C7_attempting_marked_before_remote_witness :
    load_progress FileState.absent = Except.ok (ensureAll []) ∧
    ((titanicBadgeIds.filter (shouldAttemptData (ensureAll [])) ≠ [] →
      attemptingBeforeFirstRemote (titanicBadgeIds.filter (shouldAttemptData (ensureAll [])))
        FileState.absent (traceOf (submit_titanic envDemo FileState.absent))) ∧
    (shouldAttemptData (ensureAll []) "playground_competitor" = true →
      attemptingBeforeFirstRemote ["playground_competitor"] FileState.absent
        (traceOf (submit_playground envDemo FileState.absent))) ∧
    (shouldAttemptData (ensureAll []) "community_competitor" = true →
      attemptingBeforeFirstRemote ["community_competitor"] FileState.absent
        (traceOf (submit_community envDemo FileState.absent))) ∧
    (codeBadgeIds.filter (shouldAttemptData (ensureAll [])) ≠ [] →
      attemptingBeforeFirstRemote (codeBadgeIds.filter (shouldAttemptData (ensureAll [])))
        FileState.absent (traceOf (code_submission envDemo FileState.absent))) ∧
    (shouldAttemptData (ensureAll []) "competition_modeler" = true →
      attemptingBeforeFirstRemote ["competition_modeler"] FileState.absent
        (traceOf (competition_modeler envDemo FileState.absent)))) :=
  ⟨rfl, C7_attempting_marked_before_remote envDemo FileState.absent (ensureAll []) rfl⟩

/-- C2 counterexample: with an unparseable persisted store, the
eligibility check inside the first handler raises; the orchestrator loop
has no exception handler, so the whole run aborts as an error — no target
is marked failed, no durable write and no remote action happens (empty
trace), and the remaining handlers never execute.  This refutes the claim
that the orchestrator catches every handler error, marks the targets
failed, and continues, and that no exception raised in a handler aborts
the run. -/
theorem C2_counterexample :
    phase2_run envDemo FileState.invalid =
      HRes.err jsonParseError FileState.invalid [] := rfl

/-- C2 amended: the error handling lives inside each handler, not the
orchestrator.  A handler whose remote action raises catches the error
itself, marks its attempt-eligible targets failed with the error text as
details, and returns failure, and the orchestrator then moves on to the
next handler (counting the handler as attempted but not succeeded).  An
exception that escapes a handler before its try block — such as a
store-load failure while computing eligibility — is not caught anywhere
and aborts the run (see the counterexample). -/
theorem C2_amended_handler_level_catch (env : Env) (fs : FileState) (data : Store)
    (e : String) (he : e ≠ "") (h : load_progress fs = .ok data)
    (htm : env.titanicTemplateExists = true)
    (hsub : env.titanicSubmit = .error e)
    (hne : titanicBadgeIds.filter (shouldAttemptData data) ≠ []) :
    ∃ m2 tr, submit_titanic env fs = .ok false (.valid m2) tr ∧
      (∀ i ∈ titanicBadgeIds.filter (shouldAttemptData data),
        ∃ r, lookupRec m2 i = some r ∧ r.status = some (some "failed") ∧
          r.details = some (some e)) ∧
      (∀ (name : String) (rest : List (String × (FileState → HRes Bool)))
          (att suc : Nat) (tr0 : List Event),
        runNamed ((name, fun f2 => submit_titanic env f2) :: rest) fs att suc tr0 =
          runNamed rest (.valid m2) (att + 1) suc (tr0 ++ tr)) := by
  have hcomp := complete_load fs data h
  obtain ⟨m1, evs, hssm, hc1, _, _, _, _⟩ :=
    setStatusMany_spec (titanicBadgeIds.filter (shouldAttemptData data))
      "attempting" none env.now fs data [] h hcomp hne
  simp only [List.nil_append] at hssm
  have hbody : titanicBody env (titanicBadgeIds.filter (shouldAttemptData data))
      (.valid m1) evs =
      .err e (.valid m1) (evs ++ [.remote "kaggle competitions submit (titanic)"]) := by
    unfold titanicBody
    rw [if_pos htm]
    dsimp only
    rw [hsub]
  have hload1 : load_progress (.valid m1) = .ok m1 := load_valid_of_complete m1 hc1
  obtain ⟨m2, evs2, hssm2, _, _, _, hupd2, _⟩ :=
    setStatusMany_spec (titanicBadgeIds.filter (shouldAttemptData data))
      "failed" (some e) env.now (.valid m1) m1
      (evs ++ [.remote "kaggle competitions submit (titanic)"]) hload1 hc1 hne
  have hexc : handlerExceptMany (titanicBadgeIds.filter (shouldAttemptData data)) env.now
      (.err e (.valid m1) (evs ++ [.remote "kaggle competitions submit (titanic)"])) =
      .ok false (.valid m2)
        ((evs ++ [.remote "kaggle competitions submit (titanic)"]) ++ evs2) := by
    dsimp only [handlerExceptMany]
    rw [hssm2]
  have hrun : submit_titanic env fs = .ok false (.valid m2)
      ((evs ++ [.remote "kaggle competitions submit (titanic)"]) ++ evs2) := by
    rw [submit_titanic_eq env fs data m1 evs h hne hssm, hbody, hexc]
  refine ⟨m2, (evs ++ [.remote "kaggle competitions submit (titanic)"]) ++ evs2,
    hrun, ?_, ?_⟩
  · intro i hi
    obtain ⟨r, hr, hs, hu2, hd⟩ := hupd2 i hi
    exact ⟨r, hr, hs, hd e rfl he⟩
  · intro name rest att suc tr0
    rw [runNamed_cons_ok name _ rest fs false (.valid m2)
      ((evs ++ [.remote "kaggle competitions submit (titanic)"]) ++ evs2)
      att suc tr0 hrun]
    rfl

/-- C2 amended witness: a raising Titanic submission on a fresh store
leaves both eligible targets failed with the error text and the run
proceeds to the next handler. -/
theorem C2_amended_handler_level_catch_witness :
    ("boom" : String) ≠ "" ∧
    load_progress FileState.absent = Except.ok (ensureAll []) ∧
    envBoom.titanicTemplateExists = true ∧
    envBoom.titanicSubmit = .error "boom" ∧
    titanicBadgeIds.filter (shouldAttemptData (ensureAll [])) ≠ [] ∧
    (∃ m2 tr, submit_titanic envBoom FileState.absent = .ok false (.valid m2) tr ∧
      (∀ i ∈ titanicBadgeIds.filter (shouldAttemptData (ensureAll [])),
        ∃ r, lookupRec m2 i = some r ∧ r.status = some (some "failed") ∧
          r.details = some (some "boom")) ∧
      (∀ (name : String) (rest : List (String × (FileState → HRes Bool)))
          (att suc : Nat) (tr0 : List Event),
        runNamed ((name, fun f2 => submit_titanic envBoom f2) :: rest)
            FileState.absent att suc tr0 =
          runNamed rest (.valid m2) (att + 1) suc (tr0 ++ tr))) :=
  ⟨by decide, rfl, rfl, rfl, by decide,
    C2_amended_handler_level_catch envBoom FileState.absent (ensureAll []) "boom"
      (by decide) rfl rfl rfl (by decide)⟩

/-- C1 amended witness: concrete save over an existing file. -/
theorem C1_amended_direct_write_witness :
    save_progress_ops demoStoreNew = [FsOp.writeMain demoStoreNew] ∧
    applyOps (Disk.mk (FileState.valid demoStoreOld) FileState.absent)
        (save_progress_ops demoStoreNew) =
      Disk.mk (save_progress demoStoreNew) FileState.absent ∧
    save_progress demoStoreNew = FileState.valid demoStoreNew ∧
    Disk.mk FileState.invalid FileState.absent ∈
      crashStates (Disk.mk (FileState.valid demoStoreOld) FileState.absent)
        (save_progress_ops demoStoreNew) :=
  C1_amended_direct_write demoStoreNew
    (Disk.mk (FileState.valid demoStoreOld) FileState.absent)

/-- C3 witness: the fatality of an unparseable store at a concrete
environment. -/
theorem C3_unparseable_store_fatal_witness :
    load_progress FileState.invalid = Except.error jsonParseError ∧
    (∀ data : Store, load_progress FileState.invalid ≠ Except.ok data) ∧
    phase2_run envDemo FileState.invalid =
      HRes.err jsonParseError FileState.invalid [] :=
  C3_unparseable_store_fatal envDemo
